import Mathlib

/-
Verification development for the interview-practice service.

The JavaScript sources are embedded shallowly:
  JNum              computable rational numbers standing for JS numbers
  Json              JSON values (JSON.parse results)
  parseJson         model of JSON.parse (strict JSON grammar)
  JSONParsingUtils  the robust-parsing utility (jsonUtils.js)
  VoiceInterviewService        the session manager (voiceInterviewService.js)
  PerformanceAnalysisOrchestrator  the analytics orchestrator

LLM calls, room provisioning and wall-clock time are modelled as explicit
oracle parameters (Except-valued arguments / Nat timestamps); everything
else is translated directly from the source.  JS NaN never arises on the
paths proved about; the degenerate denominator 0 marks it where a model
is still total.  Timestamp-only metadata fields (parsedAt, generatedAt,
analyzedAt) are omitted: they depend only on the wall clock.
-/

namespace Bolt

/-- Computable rational numbers used to embed JavaScript numbers.
`den = 0` is a degenerate sentinel (JS NaN / division by zero);
all smart constructors keep `den` positive and the fraction reduced. -/
structure JNum where
  num : Int
  den : Nat
deriving DecidableEq, Repr

namespace JNum

/-- Normalising constructor: sign on the numerator, reduced by gcd. -/
def mk' (n d : Int) : JNum :=
  if d = 0 then ⟨0, 0⟩
  else
    let n' : Int := if d < 0 then -n else n
    let dN : Nat := d.natAbs
    let g : Nat := Nat.gcd n'.natAbs dN
    ⟨n' / (g : Int), dN / g⟩

def ofInt (n : Int) : JNum := ⟨n, 1⟩

def ofNat (n : Nat) : JNum := ⟨(n : Int), 1⟩

def add (a b : JNum) : JNum :=
  mk' (a.num * (b.den : Int) + b.num * (a.den : Int)) ((a.den : Int) * (b.den : Int))

def sub (a b : JNum) : JNum :=
  mk' (a.num * (b.den : Int) - b.num * (a.den : Int)) ((a.den : Int) * (b.den : Int))

def mul (a b : JNum) : JNum :=
  mk' (a.num * b.num) ((a.den : Int) * (b.den : Int))

def div (a b : JNum) : JNum :=
  mk' (a.num * (b.den : Int)) ((a.den : Int) * b.num)

/-- Boolean `a <= b` by cross multiplication (dens are nonnegative). -/
def ble (a b : JNum) : Bool :=
  decide (a.num * (b.den : Int) ≤ b.num * (a.den : Int))

/-- Boolean `a < b` by cross multiplication. -/
def blt (a b : JNum) : Bool :=
  decide (a.num * (b.den : Int) < b.num * (a.den : Int))

/-- Math.floor. -/
def floor (a : JNum) : Int := a.num.fdiv (a.den : Int)

/-- Math.round (JS rounds half toward positive infinity). -/
def jsRound (a : JNum) : Int := (add a (mk' 1 2)).floor

/-- Math.min on two numbers. -/
def jmin (a b : JNum) : JNum := if ble a b then a else b

/-- Math.max on two numbers. -/
def jmax (a b : JNum) : JNum := if ble a b then b else a

/-- The rational value denoted (sentinel `den = 0` collapses to 0). -/
def toRat (a : JNum) : Rat := (a.num : Rat) / (a.den : Rat)

/-- Well-formed: not the NaN sentinel. -/
def WF (a : JNum) : Prop := a.den ≠ 0

instance (a : JNum) : Decidable a.WF :=
  inferInstanceAs (Decidable (a.den ≠ 0))

theorem mk'_den_pos {n d : Int} (hd : d ≠ 0) : 0 < (mk' n d).den := by
  unfold mk'
  rw [if_neg hd]
  have hdN : d.natAbs ≠ 0 := Int.natAbs_ne_zero.mpr hd
  have hg : Nat.gcd (if d < 0 then -n else n).natAbs d.natAbs ≠ 0 := by
    intro h
    exact hdN (Nat.gcd_eq_zero_iff.mp h).2
  exact Nat.div_pos (Nat.le_of_dvd (Nat.pos_of_ne_zero hdN)
    (Nat.gcd_dvd_right _ _)) (Nat.pos_of_ne_zero hg)

theorem mk'_wf {n d : Int} (hd : d ≠ 0) : (mk' n d).WF :=
  Nat.pos_iff_ne_zero.mp (mk'_den_pos hd)

theorem toRat_mk' {n d : Int} (hd : d ≠ 0) :
    (mk' n d).toRat = (n : Rat) / (d : Rat) := by
  unfold mk' toRat
  rw [if_neg hd]
  set n' : Int := if d < 0 then -n else n with hn'
  set dN : Nat := d.natAbs with hdN
  set g : Nat := Nat.gcd n'.natAbs dN with hgdef
  have hdN0 : dN ≠ 0 := Int.natAbs_ne_zero.mpr hd
  have hg0 : g ≠ 0 := by
    intro h
    exact hdN0 (Nat.gcd_eq_zero_iff.mp (hgdef ▸ h)).2
  have hgQ : ((g : Int) : Rat) ≠ 0 := by
    exact_mod_cast hg0
  have hdvdn : (g : Int) ∣ n' := Int.natCast_dvd.mpr (Nat.gcd_dvd_left _ _)
  have hdvdd : g ∣ dN := Nat.gcd_dvd_right _ _
  have h1 : ((n' / (g : Int) : Int) : Rat) = (n' : Rat) / ((g : Int) : Rat) :=
    Int.cast_div_charZero hdvdn
  have h2 : ((dN / g : Nat) : Rat) = (dN : Rat) / (g : Rat) :=
    Nat.cast_div hdvdd (by exact_mod_cast hg0)
  simp only [h1, h2]
  have hdNQ : (dN : Rat) ≠ 0 := by exact_mod_cast hdN0
  have hbase : (n' : Rat) / (dN : Rat) = (n : Rat) / (d : Rat) := by
    by_cases hlt : d < 0
    · have hn'e : n' = -n := by rw [hn', if_pos hlt]
      have hdNe : (dN : Int) = -d := Int.ofNat_natAbs_of_nonpos (Int.le_of_lt hlt)
      have hdNQe : (dN : Rat) = -(d : Rat) := by exact_mod_cast hdNe
      rw [hn'e, hdNQe]
      push_cast
      rw [neg_div_neg_eq]
    · have hn'e : n' = n := by rw [hn', if_neg hlt]
      have hdNe : (dN : Int) = d := Int.natAbs_of_nonneg (Int.not_lt.mp hlt)
      have hdNQe : (dN : Rat) = (d : Rat) := by exact_mod_cast hdNe
      rw [hn'e, hdNQe]
  calc (n' : Rat) / ((g:Int) : Rat) / ((dN : Rat) / (g : Rat))
      = (n' : Rat) / (g : Rat) / ((dN : Rat) / (g : Rat)) := by push_cast; ring
    _ = (n' : Rat) / (dN : Rat) := by
        field_simp
    _ = (n : Rat) / (d : Rat) := hbase

theorem den_cast_ne_zero {a : JNum} (h : a.WF) : ((a.den : Nat) : Rat) ≠ 0 := by
  exact_mod_cast h

theorem den_cast_pos {a : JNum} (h : a.WF) : (0 : Rat) < (a.den : Rat) := by
  have : 0 < a.den := Nat.pos_of_ne_zero h
  exact_mod_cast this

theorem den_int_ne_zero {a : JNum} (h : a.WF) : ((a.den : Nat) : Int) ≠ 0 := by
  exact_mod_cast h

theorem add_wf {a b : JNum} (ha : a.WF) (hb : b.WF) : (a.add b).WF :=
  mk'_wf (mul_ne_zero (den_int_ne_zero ha) (den_int_ne_zero hb))

theorem sub_wf {a b : JNum} (ha : a.WF) (hb : b.WF) : (a.sub b).WF :=
  mk'_wf (mul_ne_zero (den_int_ne_zero ha) (den_int_ne_zero hb))

theorem div_wf {a b : JNum} (ha : a.WF) (hb : b.num ≠ 0) : (a.div b).WF :=
  mk'_wf (mul_ne_zero (den_int_ne_zero ha) hb)

theorem toRat_add {a b : JNum} (ha : a.WF) (hb : b.WF) :
    (a.add b).toRat = a.toRat + b.toRat := by
  unfold add
  rw [toRat_mk' (mul_ne_zero (den_int_ne_zero ha) (den_int_ne_zero hb))]
  unfold toRat
  have h1 := den_cast_ne_zero ha
  have h2 := den_cast_ne_zero hb
  field_simp
  try push_cast
  try ring

theorem toRat_sub {a b : JNum} (ha : a.WF) (hb : b.WF) :
    (a.sub b).toRat = a.toRat - b.toRat := by
  unfold sub
  rw [toRat_mk' (mul_ne_zero (den_int_ne_zero ha) (den_int_ne_zero hb))]
  unfold toRat
  have h1 := den_cast_ne_zero ha
  have h2 := den_cast_ne_zero hb
  field_simp
  try push_cast
  try ring

theorem toRat_div {a b : JNum} (ha : a.WF) (hb : b.WF) (hbn : b.num ≠ 0) :
    (a.div b).toRat = a.toRat / b.toRat := by
  unfold div
  rw [toRat_mk' (mul_ne_zero (den_int_ne_zero ha) hbn)]
  unfold toRat
  have h1 := den_cast_ne_zero ha
  have h2 := den_cast_ne_zero hb
  have h3 : (b.num : Rat) ≠ 0 := by exact_mod_cast hbn
  field_simp
  try push_cast
  try ring

theorem toRat_ofInt (n : Int) : (ofInt n).toRat = (n : Rat) := by
  unfold ofInt toRat
  simp

theorem toRat_ofNat (n : Nat) : (ofNat n).toRat = (n : Rat) := by
  unfold ofNat toRat
  simp

theorem ofInt_wf (n : Int) : (ofInt n).WF := by
  unfold ofInt WF
  simp

theorem ofNat_wf (n : Nat) : (ofNat n).WF := by
  unfold ofNat WF
  simp

theorem ble_iff_le {a b : JNum} (ha : a.WF) (hb : b.WF) :
    a.ble b = true ↔ a.toRat ≤ b.toRat := by
  unfold ble toRat
  rw [decide_eq_true_iff]
  rw [div_le_div_iff (den_cast_pos ha) (den_cast_pos hb)]
  constructor
  · intro h
    exact_mod_cast h
  · intro h
    exact_mod_cast h

theorem floor_eq {a : JNum} (ha : a.WF) : a.floor = ⌊a.toRat⌋ := by
  unfold floor toRat
  rw [Int.fdiv_eq_ediv _ (Int.natCast_nonneg a.den)]
  rw [Rat.floor_intCast_div_natCast a.num a.den]

theorem jsRound_eq {a : JNum} (ha : a.WF) : a.jsRound = ⌊a.toRat + 1/2⌋ := by
  unfold jsRound
  have hhalf : (mk' 1 2).WF := mk'_wf (by norm_num)
  rw [floor_eq (add_wf ha hhalf), toRat_add ha hhalf, toRat_mk' (by norm_num : (2:Int) ≠ 0)]
  norm_num

end JNum

/-- JSON values, as produced by JSON.parse. -/
inductive Json where
  | null
  | bool (b : Bool)
  | num (q : JNum)
  | str (s : String)
  | arr (xs : List Json)
  | obj (fields : List (String × Json))

namespace Json

/-- The JS typeof operator on a JSON value (arrays and null are "object"). -/
def jsTypeof : Json → String
  | .null => "object"
  | .bool _ => "boolean"
  | .num _ => "number"
  | .str _ => "string"
  | .arr _ => "object"
  | .obj _ => "object"

/-- Array.isArray. -/
def isArr : Json → Bool
  | .arr _ => true
  | _ => false

def isObj : Json → Bool
  | .obj _ => true
  | _ => false

/-- JS truthiness of a JSON value. -/
def jsTruthy : Json → Bool
  | .null => false
  | .bool b => b
  | .num q => !(q.num == 0)
  | .str s => !(s == "")
  | .arr _ => true
  | .obj _ => true

/-- Property lookup in an object field list (keys are unique by construction). -/
def getField (fields : List (String × Json)) (k : String) : Option Json :=
  match fields with
  | [] => none
  | (k', v) :: rest => if k' = k then some v else getField rest k

/-- JS property assignment: replaces in place if present, appends otherwise. -/
def setField (fields : List (String × Json)) (k : String) (v : Json) :
    List (String × Json) :=
  match fields with
  | [] => [(k, v)]
  | (k', v') :: rest =>
    if k' = k then (k', v) :: rest else (k', v') :: setField rest k v

/-- Keys of an array spread into an object literal, as in JS spread syntax. -/
def indexedFields (i : Nat) : List Json → List (String × Json)
  | [] => []
  | v :: rest => (toString i, v) :: indexedFields (i + 1) rest

/-- The own enumerable fields seen by an object spread. -/
def objFields : Json → List (String × Json)
  | .obj fs => fs
  | .arr xs => indexedFields 0 xs
  | _ => []

end Json

/-! Model of JSON.parse: a strict recursive-descent JSON parser. -/

def jsonWs (c : Char) : Bool :=
  c = ' ' || c = '\t' || c = '\n' || c = '\r'

def skipWs : List Char → List Char
  | [] => []
  | c :: cs => if jsonWs c then skipWs cs else c :: cs

def listStartsWith : List Char → List Char → Bool
  | [], _ => true
  | _ :: _, [] => false
  | p :: ps, c :: cs => p = c && listStartsWith ps cs

def hexVal (c : Char) : Option Nat :=
  if '0' ≤ c ∧ c ≤ '9' then some (c.toNat - '0'.toNat)
  else if 'a' ≤ c ∧ c ≤ 'f' then some (c.toNat - 'a'.toNat + 10)
  else if 'A' ≤ c ∧ c ≤ 'F' then some (c.toNat - 'A'.toNat + 10)
  else none

/-- JSON string body after the opening quote; rejects raw control characters. -/
def parseStringBody (acc : List Char) : List Char → Option (String × List Char)
  | [] => none
  | c :: cs =>
    if c = '"' then some (String.mk acc.reverse, cs)
    else if c = '\\' then
      match cs with
      | [] => none
      | e :: cs2 =>
        if e = '"' then parseStringBody ('"' :: acc) cs2
        else if e = '\\' then parseStringBody ('\\' :: acc) cs2
        else if e = '/' then parseStringBody ('/' :: acc) cs2
        else if e = 'b' then parseStringBody ('\x08' :: acc) cs2
        else if e = 'f' then parseStringBody ('\x0c' :: acc) cs2
        else if e = 'n' then parseStringBody ('\n' :: acc) cs2
        else if e = 'r' then parseStringBody ('\r' :: acc) cs2
        else if e = 't' then parseStringBody ('\t' :: acc) cs2
        else if e = 'u' then
          match cs2 with
          | h1 :: h2 :: h3 :: h4 :: cs3 =>
            match hexVal h1, hexVal h2, hexVal h3, hexVal h4 with
            | some a, some b, some c', some d =>
              parseStringBody (Char.ofNat (((a * 16 + b) * 16 + c') * 16 + d) :: acc) cs3
            | _, _, _, _ => none
          | _ => none
        else none
    else if c.toNat < 0x20 then none
    else parseStringBody (c :: acc) cs

def digitsToNat (acc : Nat) : List Char → Nat × List Char
  | [] => (acc, [])
  | c :: cs =>
    if c.isDigit then digitsToNat (acc * 10 + (c.toNat - '0'.toNat)) cs
    else (acc, c :: cs)

def takeDigits : List Char → List Char × List Char
  | [] => ([], [])
  | c :: cs =>
    if c.isDigit then
      let (ds, rest) := takeDigits cs
      (c :: ds, rest)
    else ([], c :: cs)

/-- JSON numeric literal: -?(0|[1-9][0-9]*)(.[0-9]+)?([eE][+-]?[0-9]+)? -/
def parseNumberLit (cs : List Char) : Option (JNum × List Char) :=
  let (neg, cs1) :=
    match cs with
    | '-' :: rest => (true, rest)
    | _ => (false, cs)
  match cs1 with
  | [] => none
  | c :: _ =>
    if !c.isDigit then none
    else
      let (intPart, cs2) :=
        match cs1 with
        | '0' :: rest => (0, rest)
        | _ => digitsToNat 0 cs1
      let (fracDigits, cs3) :=
        match cs2 with
        | '.' :: rest => takeDigits rest
        | _ => ([], cs2)
      let fracOk : Bool :=
        match cs2 with
        | '.' :: _ => !fracDigits.isEmpty
        | _ => true
      let (expVal, expOk, cs4) :=
        match cs3 with
        | e :: rest =>
          if e = 'e' ∨ e = 'E' then
            let (eneg, rest1) :=
              match rest with
              | '+' :: r => (false, r)
              | '-' :: r => (true, r)
              | _ => (false, rest)
            let (eds, rest2) := takeDigits rest1
            let ev : Int := if eneg then -(Int.ofNat (digitsToNat 0 eds).1)
                            else Int.ofNat (digitsToNat 0 eds).1
            (ev, !eds.isEmpty, rest2)
          else ((0 : Int), true, cs3)
        | [] => ((0 : Int), true, cs3)
      if !fracOk || !expOk then none
      else
        let fracLen := fracDigits.length
        let mantissa : Nat := intPart * 10 ^ fracLen + (digitsToNat 0 fracDigits).1
        let m : Int := if neg then -(Int.ofNat mantissa) else Int.ofNat mantissa
        let ePos : Nat := expVal.toNat
        let eNeg : Nat := (-expVal).toNat
        some (JNum.mk' (m * (10 : Int) ^ ePos) ((10 : Int) ^ (fracLen + eNeg)), cs4)

mutual

def parseValue : Nat → List Char → Option (Json × List Char)
  | 0, _ => none
  | fuel + 1, cs =>
    match cs with
    | [] => none
    | c :: rest =>
      if c = '{' then
        match skipWs rest with
        | '}' :: cs2 => some (.obj [], cs2)
        | cs1 => parseObjRest fuel cs1 []
      else if c = '[' then
        match skipWs rest with
        | ']' :: cs2 => some (.arr [], cs2)
        | cs1 => parseArrRest fuel cs1 []
      else if c = '"' then
        match parseStringBody [] rest with
        | some (s, cs2) => some (.str s, cs2)
        | none => none
      else if listStartsWith ['t','r','u','e'] cs then
        some (.bool true, cs.drop 4)
      else if listStartsWith ['f','a','l','s','e'] cs then
        some (.bool false, cs.drop 5)
      else if listStartsWith ['n','u','l','l'] cs then
        some (.null, cs.drop 4)
      else
        match parseNumberLit cs with
        | some (q, cs2) => some (.num q, cs2)
        | none => none

def parseArrRest : Nat → List Char → List Json → Option (Json × List Char)
  | 0, _, _ => none
  | fuel + 1, cs, acc =>
    match parseValue fuel (skipWs cs) with
    | none => none
    | some (v, cs2) =>
      match skipWs cs2 with
      | ',' :: cs3 => parseArrRest fuel cs3 (acc ++ [v])
      | ']' :: cs3 => some (.arr (acc ++ [v]), cs3)
      | _ => none

def parseObjRest : Nat → List Char → List (String × Json) → Option (Json × List Char)
  | 0, _, _ => none
  | fuel + 1, cs, acc =>
    match skipWs cs with
    | '"' :: cs1 =>
      match parseStringBody [] cs1 with
      | some (k, cs2) =>
        match skipWs cs2 with
        | ':' :: cs3 =>
          match parseValue fuel (skipWs cs3) with
          | some (v, cs4) =>
            let acc' := Json.setField acc k v
            match skipWs cs4 with
            | ',' :: cs5 => parseObjRest fuel cs5 acc'
            | '}' :: cs5 => some (.obj acc', cs5)
            | _ => none
          | none => none
        | _ => none
      | none => none
    | _ => none

end

/-- Model of JSON.parse: returns the parsed value or none where JS throws. -/
def parseJson (s : String) : Option Json :=
  match parseValue (s.length + 1) (skipWs s.toList) with
  | some (v, rest) => if (skipWs rest).isEmpty then some v else none
  | none => none

/-! Embedding of src/utils/jsonUtils.js (JSONParsingUtils).  The context
argument of the JS methods is used only for console logging and is dropped. -/

namespace JSONParsingUtils

/-- The backtick character. -/
def backtickChar : Char := Char.ofNat 96

/-- Whitespace class of the JS regexes (the ASCII part of \s). -/
def jsWsChar (c : Char) : Bool :=
  c = ' ' || c = '\t' || c = '\n' || c = '\r' || c = '\x0c' || c = '\x0b'

/-- Strip a run of `c` from both ends, as the JS regex ^c+|c+$ with flag g. -/
def stripEdges (c : Char) (s : String) : String :=
  String.mk (((s.toList.dropWhile (· = c)).reverse.dropWhile (· = c)).reverse)

/-- Whitespace trimmed by String.prototype.trim. -/
def jsTrimChar (c : Char) : Bool :=
  jsWsChar c || c = '\u00A0' || c = '\uFEFF'

/-- String.prototype.trim. -/
def jsTrim (s : String) : String :=
  String.mk (((s.toList.dropWhile jsTrimChar).reverse.dropWhile jsTrimChar).reverse)

/-- String.prototype.startsWith. -/
def strStartsWith (s pat : String) : Bool :=
  listStartsWith pat.toList s.toList

/-- String.prototype.endsWith. -/
def strEndsWith (s pat : String) : Bool :=
  listStartsWith pat.toList.reverse s.toList.reverse

/-- String.prototype.substring(0, n). -/
def strTake (s : String) (n : Nat) : String :=
  String.mk (s.toList.take n)

/-- cleanLLMResponse: remove markdown fences, stray backticks, wrapping quotes. -/
def cleanLLMResponse (response : String) : String :=
  let cleaned := jsTrim response
  let cleaned :=
    if strStartsWith cleaned "```json" then cleaned.drop 7
    else if strStartsWith cleaned "```" then cleaned.drop 3
    else cleaned
  let cleaned := if strEndsWith cleaned "```" then cleaned.dropRight 3 else cleaned
  let cleaned := stripEdges backtickChar cleaned
  let cleaned :=
    if (strStartsWith cleaned "\"" && strEndsWith cleaned "\"") ||
       (strStartsWith cleaned "\x27" && strEndsWith cleaned "\x27") then
      (cleaned.drop 1).dropRight 1
    else cleaned
  jsTrim cleaned

def idxOfChar (cs : List Char) (c : Char) : Option Nat :=
  match cs with
  | [] => none
  | c' :: rest =>
    if c' = c then some 0
    else match idxOfChar rest c with
      | some i => some (i + 1)
      | none => none

def lastIdxOfChar (cs : List Char) (c : Char) : Option Nat :=
  match (idxOfChar cs.reverse c) with
  | some i => some (cs.length - 1 - i)
  | none => none

/-- Regex 1 of extractJSONFromText: first brace through the last closing
brace, the match of the greedy pattern brace-anychars-brace. -/
def extractP1 (text : String) : Option String :=
  let cs := text.toList
  match idxOfChar cs '{', lastIdxOfChar cs '}' with
  | some i, some j =>
    if i < j then some (String.mk ((cs.drop i).take (j - i + 1))) else none
  | _, _ => none

/-- Does a run of whitespace followed by a triple backtick follow here? -/
def fenceFollows (cs : List Char) : Bool :=
  listStartsWith "```".toList (cs.dropWhile jsWsChar)

/-- Lazy group: smallest brace-terminated span whose closing brace is
followed by optional whitespace and a closing fence. -/
def lazyBraceFence (acc : List Char) : List Char → Option String
  | [] => none
  | c :: rest =>
    if c = '}' && fenceFollows rest then some (String.mk (acc ++ [c]))
    else lazyBraceFence (acc ++ [c]) rest

/-- Regex 2 of extractJSONFromText: a brace span inside a ```json fence. -/
def extractP2scan : List Char → Option String
  | [] => none
  | c :: rest =>
    if listStartsWith "```json".toList (c :: rest) then
      match ((c :: rest).drop 7).dropWhile jsWsChar with
      | '{' :: body =>
        match lazyBraceFence ['{'] body with
        | some g => some g
        | none => extractP2scan rest
      | _ => extractP2scan rest
    else extractP2scan rest

def listStartsWithCI (pat : List Char) (cs : List Char) : Bool :=
  match pat, cs with
  | [], _ => true
  | _ :: _, [] => false
  | p :: ps, c :: cs' => p = c.toLower && listStartsWithCI ps cs'

/-- Scan for a (case-insensitive, lower-case) keyword followed by optional
whitespace and a greedy brace span running to the last closing brace. -/
def scanKeywordGreedy (pat : List Char) : List Char → Option String
  | [] => none
  | c :: rest =>
    if listStartsWithCI pat (c :: rest) then
      match ((c :: rest).drop pat.length).dropWhile jsWsChar with
      | '{' :: body =>
        match lastIdxOfChar body '}' with
        | some j => some (String.mk ('{' :: body.take (j + 1)))
        | none => scanKeywordGreedy pat rest
      | _ => scanKeywordGreedy pat rest
    else scanKeywordGreedy pat rest

/-- extractJSONFromText: the three regex strategies in source order. -/
def extractJSONFromText (text : String) : Option String :=
  match extractP1 text with
  | some m => some m
  | none =>
    match extractP2scan text.toList with
    | some m => some m
    | none => scanKeywordGreedy ['j','s','o','n'] text.toList

def notBrace (c : Char) : Bool := c ≠ '{' && c ≠ '}'

/-- Matcher for the depth-two brace regex of advancedJSONExtraction,
positioned just after an opening brace. -/
def md2go : Nat → List Char → List Char → Option (List Char × List Char)
  | 0, _, _ => none
  | fuel + 1, acc, cs =>
    let p := cs.takeWhile notBrace
    match cs.drop p.length with
    | '}' :: r => some (acc ++ p ++ ['}'], r)
    | '{' :: r2 =>
      let q := r2.takeWhile notBrace
      match r2.drop q.length with
      | '}' :: r3 => md2go fuel (acc ++ p ++ ['{'] ++ q ++ ['}']) r3
      | _ => none
    | _ => none

/-- All matches of the depth-two brace regex, scanning left to right. -/
def scanDepth2 : Nat → List Char → List String
  | 0, _ => []
  | fuel + 1, cs =>
    match cs with
    | [] => []
    | c :: rest =>
      if c = '{' then
        match md2go (rest.length + 1) ['{'] rest with
        | some (m, r) => String.mk m :: scanDepth2 fuel r
        | none => scanDepth2 fuel rest
      else scanDepth2 fuel rest

/-- The reduce of the JS source: keep the accumulator only when strictly
longer, so ties go to the later match. -/
def longestMatch : List String → Option String
  | [] => none
  | s :: rest => some (rest.foldl (fun a b => if a.length > b.length then a else b) s)

def isWordChar (c : Char) : Bool := c.isAlphanum || c = '_'

/-- Regex 2 of advancedJSONExtraction: a lazy brace span inside any fenced
block, regardless of its language tag. -/
def extractAdvP2scan : List Char → Option String
  | [] => none
  | c :: rest =>
    if listStartsWith "```".toList (c :: rest) then
      match (((c :: rest).drop 3).dropWhile isWordChar).dropWhile jsWsChar with
      | '{' :: body =>
        match lazyBraceFence ['{'] body with
        | some g => some g
        | none => extractAdvP2scan rest
      | _ => extractAdvP2scan rest
    else extractAdvP2scan rest

/-- Regex 3 of advancedJSONExtraction: greedy brace span after a label. -/
def extractAdvP3 (cs : List Char) : Option String :=
  match scanKeywordGreedy "response:".toList cs with
  | some m => some m
  | none =>
    match scanKeywordGreedy "result:".toList cs with
    | some m => some m
    | none =>
      match scanKeywordGreedy "output:".toList cs with
      | some m => some m
      | none =>
        match scanKeywordGreedy "json:".toList cs with
        | some m => some m
        | none => scanKeywordGreedy "data:".toList cs

/-- advancedJSONExtraction: longest depth-two span, then fenced-block span,
then labelled span. -/
def advancedJSONExtraction (text : String) : Option String :=
  match longestMatch (scanDepth2 (text.length + 1) text.toList) with
  | some m => some m
  | none =>
    match extractAdvP2scan text.toList with
    | some m => some m
    | none => extractAdvP3 text.toList

/-- Result envelope of parseRobustJSON. -/
structure ParseResult where
  success : Bool
  data : Option Json
  method : String
  error : Option String
  originalResponse : Option String

/-- parseRobustJSON: the four parsing strategies in order, first success
wins; on total failure a failure record keeping the first 500 characters. -/
def parseRobustJSON (response : String) : ParseResult :=
  match parseJson response with
  | some j => ⟨true, some j, "direct", none, none⟩
  | none =>
    match parseJson (cleanLLMResponse response) with
    | some j => ⟨true, some j, "cleaned", none, none⟩
    | none =>
      match (match extractJSONFromText response with
             | some e => parseJson e
             | none => none) with
      | some j => ⟨true, some j, "extracted", none, none⟩
      | none =>
        match (match advancedJSONExtraction response with
               | some e => parseJson e
               | none => none) with
        | some j => ⟨true, some j, "advanced_extracted", none, none⟩
        | none =>
          ⟨false, none, "failed", some "All JSON parsing strategies failed",
            some (strTake response 500)⟩

/-- One field rule of a validation schema. -/
structure Rule where
  required : Bool := false
  type : Option String := none
  default : Option Json := none
  min : Option JNum := none
  max : Option JNum := none
  coerce : Bool := false

/-- Number(value), none for NaN: JS numeric string conversion. -/
def jsStringToNumber (s : String) : Option JNum :=
  let t := jsTrim s
  if t = "" then some (JNum.ofInt 0)
  else
    let cs := t.toList
    let (neg, cs1) :=
      match cs with
      | '+' :: r => (false, r)
      | '-' :: r => (true, r)
      | _ => (false, cs)
    let (ip, cs2) := takeDigits cs1
    let (fp, cs3) :=
      match cs2 with
      | '.' :: r => takeDigits r
      | _ => ([], cs2)
    let hasDigits := !ip.isEmpty || !fp.isEmpty
    let (expVal, expOk, cs4) :=
      match cs3 with
      | e :: rest =>
        if e = 'e' ∨ e = 'E' then
          let (eneg, rest1) :=
            match rest with
            | '+' :: r => (false, r)
            | '-' :: r => (true, r)
            | _ => (false, rest)
          let (eds, rest2) := takeDigits rest1
          let ev : Int := if eneg then -(Int.ofNat (digitsToNat 0 eds).1)
                          else Int.ofNat (digitsToNat 0 eds).1
          (ev, !eds.isEmpty, rest2)
        else ((0 : Int), true, cs3)
      | [] => ((0 : Int), true, cs3)
    if !hasDigits || !expOk || !cs4.isEmpty then none
    else
      let fracLen := fp.length
      let mantissa : Nat := (digitsToNat 0 ip).1 * 10 ^ fracLen + (digitsToNat 0 fp).1
      let m : Int := if neg then -(Int.ofNat mantissa) else Int.ofNat mantissa
      some (JNum.mk' (m * (10 : Int) ^ expVal.toNat) ((10 : Int) ^ (fracLen + (-expVal).toNat)))

/-- Number(value) on a JSON value, none for NaN. -/
def jsToNumber : Json → Option JNum
  | .null => some (JNum.ofInt 0)
  | .bool b => some (JNum.ofInt (if b then 1 else 0))
  | .num q => some q
  | .str s => jsStringToNumber s
  | .arr [] => some (JNum.ofInt 0)
  | .arr [x] => jsToNumber x
  | .arr _ => none
  | .obj _ => none

/-- Decimal rendering of an integral number; the fraction form stands in
for the JS decimal expansion of non-integral numbers (not reached through
any createSchema rule, which only coerces to numbers). -/
def numToString (q : JNum) : String :=
  if q.den = 1 then toString q.num
  else toString q.num ++ "/" ++ toString q.den

mutual

/-- String(value). -/
def jsToString : Json → String
  | .null => "null"
  | .bool b => if b then "true" else "false"
  | .num q => numToString q
  | .str s => s
  | .arr xs => String.intercalate "," (jsToStringElems xs)
  | .obj _ => "[object Object]"

def jsToStringElems : List Json → List String
  | [] => []
  | .null :: r => "" :: jsToStringElems r
  | x :: r => jsToString x :: jsToStringElems r

end

/-- coerceType: conversion used when a rule carries coerce. -/
def coerceType (value : Json) (targetType : String) : Json :=
  if targetType = "number" then
    match jsToNumber value with
    | some q => .num q
    | none => .num (JNum.ofInt 0)
  else if targetType = "string" then .str (jsToString value)
  else if targetType = "boolean" then .bool value.jsTruthy
  else if targetType = "array" then
    if value.isArr then value else .arr [value]
  else value

/-- The loop body of validateAndNormalize for one schema entry: default
filling, typeof check with optional coercion, numeric clamping, array check.
Returns the updated fields and the validation errors raised here. -/
def validateField (fields : List (String × Json)) (nm : String) (r : Rule) :
    List (String × Json) × List String :=
  let step1 :=
    if r.required && (Json.getField fields nm).isNone then
      match r.default with
      | some d => (Json.setField fields nm d, ([] : List String))
      | none => (fields, ["Required field " ++ nm ++ " is missing"])
    else (fields, [])
  let fields1 := step1.1
  let errs1 := step1.2
  match Json.getField fields1 nm with
  | none => (fields1, errs1)
  | some v =>
    let step2 :=
      match r.type with
      | some t =>
        if Json.jsTypeof v ≠ t then
          if r.coerce then
            let v' := coerceType v t
            (Json.setField fields1 nm v', errs1, v')
          else
            (fields1,
             errs1 ++ ["Field " ++ nm ++ " should be " ++ t ++ ", got " ++ Json.jsTypeof v],
             v)
        else (fields1, errs1, v)
      | none => (fields1, errs1, v)
    let fields2 := step2.1
    let errs2 := step2.2.1
    let v2 := step2.2.2
    let step3 :=
      if r.type = some "number" then
        match v2 with
        | .num q =>
          let q1 :=
            match r.min with
            | some m => if JNum.blt q m then m else q
            | none => q
          let q2 :=
            match r.max with
            | some M => if JNum.blt M q1 then M else q1
            | none => q1
          if q2 = q then (fields2, v2)
          else (Json.setField fields2 nm (.num q2), Json.num q2)
        | _ => (fields2, v2)
      else (fields2, v2)
    let fields3 := step3.1
    let v3 := step3.2
    if r.type = some "array" && !v3.isArr then
      match r.default with
      | some d =>
        if d.jsTruthy then (Json.setField fields3 nm d, errs2)
        else (fields3, errs2 ++ ["Field " ++ nm ++ " should be an array"])
      | none => (fields3, errs2 ++ ["Field " ++ nm ++ " should be an array"])
    else (fields3, errs2)

/-- Sequential application of all schema entries, collecting errors. -/
def applySchema : List (String × Rule) → List (String × Json) →
    List (String × Json) × List String
  | [], fields => (fields, [])
  | (nm, r) :: rest, fields =>
    let one := validateField fields nm r
    let further := applySchema rest one.1
    (further.1, one.2 ++ further.2)

/-- Result envelope of validateAndNormalize; the non-object branch of the
source returns an object without data/errors/warnings keys. -/
structure ValidationResult where
  valid : Bool
  data : Option Json
  errors : Option (List String)
  warnings : Option Nat
  error : Option String

/-- validateAndNormalize: reject non-objects, copy the data, then apply
every schema rule in order. -/
def validateAndNormalize (data : Json) (schema : List (String × Rule)) :
    ValidationResult :=
  if !data.jsTruthy || data.jsTypeof ≠ "object" then
    ⟨false, none, none, none, some "Data is not an object"⟩
  else
    let applied := applySchema schema (Json.objFields data)
    ⟨applied.2.isEmpty, some (.obj applied.1), some applied.2,
      some applied.2.length, none⟩

/-- createSchema: the four built-in validation schemas. -/
def createSchema : String → List (String × Rule)
  | "topicAnalysis" =>
    [("mainConcepts", { required := true, type := some "array", default := some (.arr [.str "Core Concepts"]) }),
     ("skills", { required := true, type := some "array", default := some (.arr [.str "General Skills"]) }),
     ("focusAreas", { required := true, type := some "array", default := some (.arr [.str "General Knowledge"]) }),
     ("relevanceKeywords", { required := true, type := some "array", default := some (.arr [.str "relevant", .str "important"]) }),
     ("complexity", { type := some "string", default := some (.str "medium") }),
     ("technologies", { type := some "array", default := some (.arr []) }),
     ("questionCategories", { type := some "array", default := some (.arr [.str "general"]) })]
  | "questionGeneration" =>
    [("question", { required := true, type := some "string" }),
     ("metadata", { type := some "object", default := some (.obj []) }),
     ("reasoning", { type := some "string", default := some (.str "Generated question") })]
  | "responseAnalysis" =>
    [("responseAnalysis", { required := true, type := some "object", default := some (.obj []) }),
     ("score", { required := true, type := some "number", default := some (.num (JNum.ofInt 70)), min := some (JNum.ofInt 0), max := some (JNum.ofInt 100), coerce := true }),
     ("feedback", { required := true, type := some "string", default := some (.str "Good response") }),
     ("strengths", { required := true, type := some "array", default := some (.arr [.str "Shows understanding"]) }),
     ("improvements", { required := true, type := some "array", default := some (.arr [.str "Add more details"]) })]
  | "overallAnalysis" =>
    [("overallScore", { required := true, type := some "number", default := some (.num (JNum.ofInt 70)), min := some (JNum.ofInt 0), max := some (JNum.ofInt 100), coerce := true }),
     ("performanceLevel", { required := true, type := some "string", default := some (.str "fair") }),
     ("strengths", { required := true, type := some "array", default := some (.arr [.str "Shows understanding"]) }),
     ("improvements", { required := true, type := some "array", default := some (.arr [.str "Practice more"]) }),
     ("responseAnalysis", { required := true, type := some "object", default := some (.obj []) }),
     ("executiveSummary", { type := some "string", default := some (.str "Performance summary") }),
     ("recommendations", { type := some "array", default := some (.arr [.str "Continue practicing"]) }),
     ("nextSteps", { type := some "array", default := some (.arr [.str "Keep improving"]) })]
  | _ => []

/-- Result envelope of parseWithValidation (nested validation/metadata
objects flattened; timestamp metadata omitted). -/
structure PWVResult where
  success : Bool
  data : Option Json
  method : String
  error : Option String
  originalResponse : Option String
  validationValid : Option Bool
  validationErrors : Option (List String)
  validationWarnings : Option Nat

/-- parseWithValidation: robust parse, then schema validation; accepted
when valid or with fewer than 3 warnings. -/
def parseWithValidation (response : String) (schemaType : String) : PWVResult :=
  let parseResult := parseRobustJSON response
  if !parseResult.success then
    ⟨false, none, parseResult.method, parseResult.error,
      parseResult.originalResponse, none, none, none⟩
  else
    match parseResult.data with
    | none =>
      ⟨false, none, parseResult.method, parseResult.error,
        parseResult.originalResponse, none, none, none⟩
    | some d =>
      let vr := validateAndNormalize d (createSchema schemaType)
      ⟨vr.valid || (match vr.warnings with
                    | some w => decide (w < 3)
                    | none => false),
        vr.data, parseResult.method, none, none,
        some vr.valid, vr.errors, vr.warnings⟩

end JSONParsingUtils

/-! Embedding of src/services/voiceInterviewService.js.  The LiveKit room,
the LLM and the clock enter as oracle parameters; access tokens are
plain strings.  Question payloads from the LLM stay Json values, as in the JS. -/

namespace VoiceInterviewService

inductive SessStatus where
  | waiting
  | active
  | paused
  | completed
deriving DecidableEq, Repr

structure InterviewConfigJS where
  topic : String
  style : String
  experienceLevel : String
  companyName : String
  duration : Nat
deriving DecidableEq, Repr

structure StoredResponse where
  questionId : String
  question : Option Json
  response : String
  timestamp : Nat
  audioMetadata : Json
  duration : Nat

structure VoiceSession where
  sessionId : String
  roomName : String
  config : InterviewConfigJS
  participantName : String
  startTime : Nat
  currentQuestionIndex : Nat
  questions : List Json
  responses : List StoredResponse
  status : SessStatus
  pausedAt : Option Nat
  pauseDuration : Nat
  endTime : Option Nat

/-- The activeInterviews map. -/
def ServiceState := List (String × VoiceSession)

def lookupSession (svc : ServiceState) (sid : String) : Option VoiceSession :=
  match svc with
  | [] => none
  | (k, s) :: rest => if k = sid then some s else lookupSession rest sid

/-- Map.set, and equally the in-place mutation of a stored session object. -/
def setSession (svc : ServiceState) (sid : String) (s : VoiceSession) : ServiceState :=
  match svc with
  | [] => [(sid, s)]
  | (k, s') :: rest =>
    if k = sid then (k, s) :: rest else (k, s') :: setSession rest sid s

/-- calculateTotalQuestions from the source: a function of duration alone. -/
def calculateTotalQuestions (duration : Nat) : Nat :=
  min (max 3 (duration / 15)) 8

def shouldContinueInterview (s : VoiceSession) (now : Nat) : Bool :=
  decide (s.currentQuestionIndex < calculateTotalQuestions s.config.duration) &&
  decide (now - s.startTime < s.config.duration * 60 * 1000)

/-- The question-text extraction in generateNextQuestion: a string is kept,
otherwise the question property or the default on a falsy value. -/
def questionTextOf (q : Json) : Json :=
  match q with
  | .str s => .str s
  | .obj fs =>
    match Json.getField fs "question" with
    | some v => if v.jsTruthy then v else .str "Default question"
    | none => .str "Default question"
  | _ => .str "Default question"

structure GenNextResult where
  question : Json
  questionNumber : Nat
  totalQuestions : Nat

/-- generateNextQuestion: appends the question and advances the index in
one step, or fails leaving the session untouched. -/
def generateNextQuestion (svc : ServiceState) (sid : String)
    (qo : Except Unit Json) : ServiceState × Except String GenNextResult :=
  match lookupSession svc sid with
  | none => (svc, .error "Interview session not found")
  | some s =>
    match qo with
    | .error _ => (svc, .error "Failed to generate question")
    | .ok q =>
      let questionText := questionTextOf q
      let s' := { s with questions := s.questions ++ [questionText],
                         currentQuestionIndex := s.currentQuestionIndex + 1 }
      (setSession svc sid s',
       .ok ⟨questionText, s'.currentQuestionIndex,
            calculateTotalQuestions s'.config.duration⟩)

structure Progress where
  current : Nat
  total : Nat
  percentage : JNum

def mkProgress (s : VoiceSession) : Progress :=
  let total := calculateTotalQuestions s.config.duration
  ⟨s.currentQuestionIndex, total,
   JNum.mul (JNum.div (JNum.ofNat s.currentQuestionIndex) (JNum.ofNat total))
     (JNum.ofNat 100)⟩

/-- The InterviewResponse record pushed by processVoiceResponse. -/
def mkResponseRecord (s : VoiceSession) (transcription : String)
    (audioMetadata : Json) (now : Nat) : StoredResponse :=
  { questionId := "q" ++ toString s.currentQuestionIndex
    question := if s.currentQuestionIndex = 0 then none
                else s.questions.get? (s.currentQuestionIndex - 1)
    response := transcription
    timestamp := now
    audioMetadata := audioMetadata
    duration := now - s.startTime }

structure PVRResult where
  responseProcessed : Bool
  analysis : Option Json
  nextQuestion : Option GenNextResult
  isComplete : Bool
  progress : Progress

/-- processVoiceResponse: appends the response unconditionally (the session
status is never examined), analyses it, then either hands out the next
question or marks the session completed. -/
def processVoiceResponse (svc : ServiceState) (sid : String)
    (transcription : String) (audioMetadata : Json) (now : Nat)
    (ao : Except Unit Json) (qo : Except Unit Json) :
    ServiceState × Except String PVRResult :=
  match lookupSession svc sid with
  | none => (svc, .error "Interview session not found")
  | some s =>
    let record := mkResponseRecord s transcription audioMetadata now
    let s1 := { s with responses := s.responses ++ [record] }
    let svc1 := setSession svc sid s1
    let analysis : Option Json :=
      match ao with
      | .ok a => some a
      | .error _ => none
    let shouldContinue := shouldContinueInterview s1 now
    if shouldContinue then
      match generateNextQuestion svc1 sid qo with
      | (svc2, .ok nq) =>
        let cur := (lookupSession svc2 sid).getD s1
        (setSession svc2 sid cur,
         .ok ⟨true, analysis, some nq, false, mkProgress cur⟩)
      | (svc2, .error _) =>
        let cur := (lookupSession svc2 sid).getD s1
        (setSession svc2 sid cur,
         .ok ⟨true, analysis, none, false, mkProgress cur⟩)
    else
      let s2 := { s1 with status := .completed }
      let svc2 := setSession svc1 sid s2
      (setSession svc2 sid s2,
       .ok ⟨true, analysis, none, true, mkProgress s2⟩)

structure FollowUpResult where
  followUp : Json
  questionNumber : Nat
  isFollowUp : Bool

/-- generateFollowUp: read-only on the session state. -/
def generateFollowUp (svc : ServiceState) (sid : String)
    (fo : Except Unit Json) : ServiceState × Except String FollowUpResult :=
  match lookupSession svc sid with
  | none => (svc, .error "Interview session not found")
  | some s =>
    match fo with
    | .error _ => (svc, .error "Failed to generate follow-up question")
    | .ok f => (svc, .ok ⟨f, s.currentQuestionIndex, true⟩)

structure PauseResult where
  paused : Bool
  sessionId : String
deriving DecidableEq, Repr

/-- pauseInterview: no status precondition is checked. -/
def pauseInterview (svc : ServiceState) (sid : String) (now : Nat) :
    ServiceState × Except String PauseResult :=
  match lookupSession svc sid with
  | none => (svc, .error "Interview session not found")
  | some s =>
    let s' := { s with status := .paused, pausedAt := some now }
    (setSession svc sid s', .ok ⟨true, sid⟩)

structure ResumeResult where
  resumed : Bool
  sessionId : String
deriving DecidableEq, Repr

/-- resumeInterview: no status precondition is checked. -/
def resumeInterview (svc : ServiceState) (sid : String) (now : Nat) :
    ServiceState × Except String ResumeResult :=
  match lookupSession svc sid with
  | none => (svc, .error "Interview session not found")
  | some s =>
    let s1 := { s with status := .active }
    let s2 :=
      match s1.pausedAt with
      | some t => { s1 with pauseDuration := s1.pauseDuration + (now - t),
                            pausedAt := none }
      | none => s1
    (setSession svc sid s2, .ok ⟨true, sid⟩)

structure EndSessionMetadata where
  sessionId : String
  duration : Nat
  pauseDuration : Nat
  questionsAsked : Nat
  responsesGiven : Nat
  completionRate : JNum

structure EndResult where
  completed : Bool
  sessionId : String
  analytics : Json
  sessionMetadata : EndSessionMetadata

/-- endInterview: the status flips to completed before the analytics call,
so the mutation persists even when analytics fail. -/
def endInterview (svc : ServiceState) (sid : String) (now : Nat)
    (analyticsO : Except Unit Json) : ServiceState × Except String EndResult :=
  match lookupSession svc sid with
  | none => (svc, .error "Interview session not found")
  | some s =>
    let s1 := { s with status := .completed, endTime := some now }
    let svc1 := setSession svc sid s1
    match analyticsO with
    | .error _ => (svc1, .error "Failed to end interview")
    | .ok analytics =>
      (svc1,
       .ok ⟨true, sid, analytics,
            ⟨sid, now - s1.startTime, s1.pauseDuration, s1.questions.length,
             s1.responses.length,
             JNum.mul (JNum.div (JNum.ofNat s1.responses.length)
               (JNum.ofNat s1.questions.length)) (JNum.ofNat 100)⟩⟩)

structure ReconnectResult where
  sessionId : String
  roomName : String
  participantToken : String
  currentQuestion : Option Json
  progressCurrent : Nat
  progressTotal : Nat

/-- reconnectToSession: issues a fresh token; session state untouched and
no completion check is made. -/
def reconnectToSession (svc : ServiceState) (sid : String)
    (tokenO : Except Unit String) : ServiceState × Except String ReconnectResult :=
  match lookupSession svc sid with
  | none => (svc, .error "Interview session not found")
  | some s =>
    match tokenO with
    | .error _ => (svc, .error "Failed to reconnect to session")
    | .ok tok =>
      (svc,
       .ok ⟨sid, s.roomName, tok,
            (if s.currentQuestionIndex = 0 then none
             else s.questions.get? (s.currentQuestionIndex - 1)),
            s.currentQuestionIndex,
            calculateTotalQuestions s.config.duration⟩)

structure RoomData where
  roomName : String
  wsUrl : String
  participantToken : String
  interviewerToken : String

structure StartResult where
  sessionId : String
  roomName : String
  wsUrl : String
  participantToken : String
  firstQuestion : String
  config : InterviewConfigJS

/-- startVoiceInterview: creates the session in waiting with empty logs,
stores it, then requests the first question; a question failure leaves the
stored session behind and surfaces as a start failure. -/
def startVoiceInterview (svc : ServiceState) (cfg : InterviewConfigJS)
    (participantName : String) (now : Nat) (roomO : Except Unit RoomData)
    (qo : Except Unit Json) : ServiceState × Except String StartResult :=
  match roomO with
  | .error _ => (svc, .error "Failed to start voice interview")
  | .ok rd =>
    let sid := rd.roomName
    let s0 : VoiceSession :=
      ⟨sid, rd.roomName, cfg, participantName, now, 0, [], [], .waiting, none, 0, none⟩
    let svc1 := setSession svc sid s0
    match generateNextQuestion svc1 sid qo with
    | (svc2, .ok fq) =>
      let firstQuestionText : String :=
        match fq.question with
        | .str t => t
        | _ => "Welcome to your voice interview. Please wait for the first question."
      (svc2, .ok ⟨sid, rd.roomName, rd.wsUrl, rd.participantToken,
                  firstQuestionText, cfg⟩)
    | (svc2, .error _) => (svc2, .error "Failed to start voice interview")

/-- One step of the session manager: any operation, any oracle outcome. -/
inductive StepVIS : ServiceState → ServiceState → Prop where
  | start (svc) (cfg participantName now roomO qo) :
      StepVIS svc (startVoiceInterview svc cfg participantName now roomO qo).1
  | genNext (svc) (sid qo) :
      StepVIS svc (generateNextQuestion svc sid qo).1
  | process (svc) (sid transcription audioMetadata now ao qo) :
      StepVIS svc
        (processVoiceResponse svc sid transcription audioMetadata now ao qo).1
  | followUp (svc) (sid fo) :
      StepVIS svc (generateFollowUp svc sid fo).1
  | pause (svc) (sid now) :
      StepVIS svc (pauseInterview svc sid now).1
  | resume (svc) (sid now) :
      StepVIS svc (resumeInterview svc sid now).1
  | endI (svc) (sid now ao) :
      StepVIS svc (endInterview svc sid now ao).1
  | reconnect (svc) (sid tokenO) :
      StepVIS svc (reconnectToSession svc sid tokenO).1

/-- Service states reachable from a fresh service. -/
inductive ReachableVIS : ServiceState → Prop where
  | init : ReachableVIS []
  | step {svc svc'} : ReachableVIS svc → StepVIS svc svc' → ReachableVIS svc'

/-- Every stored session has exactly as many handed-out questions as its
current question index. -/
def SessionsBalanced (svc : ServiceState) : Prop :=
  ∀ sid s, lookupSession svc sid = some s →
    s.questions.length = s.currentQuestionIndex

end VoiceInterviewService

/-! Embedding of src/server/agents/performanceAnalysisOrchestrator.js.
The two analysis agents are LLM-driven and enter as oracles returning
either a structured analysis or a failure; every other line is translated
directly.  The whole-report fallback of the outer catch is unreachable
here because both agent failures are absorbed before it (and it draws on
Math.random).  The JS field name structure is rendered structure_. -/

namespace PerformanceAnalysisOrchestrator

open VoiceInterviewService (InterviewConfigJS)

structure RespScores where
  clarity : JNum
  structure_ : JNum
  technical : JNum
  communication : JNum
  confidence : JNum
  relevance : JNum
deriving DecidableEq, Repr

structure RespAnalysis where
  responseAnalysis : RespScores
  strengths : List String
  improvements : List String
  feedback : String
  score : JNum
  keyInsights : List String
  reasoning : String
deriving DecidableEq, Repr

/-- A stored response as consumed by the orchestrator. -/
structure InterviewResponse where
  questionId : String
  question : String
  response : String
  timestamp : Nat
  duration : Nat
deriving DecidableEq, Repr

/-- One element of the responseAnalyses list. -/
structure RespEntry where
  questionId : String
  question : String
  response : String
  timestamp : Nat
  analysis : RespAnalysis
  metaFallback : Bool
deriving DecidableEq, Repr

def listContainsSub (needle : List Char) : List Char → Bool
  | [] => needle.isEmpty
  | c :: rest => listStartsWith needle (c :: rest) || listContainsSub needle rest

def strContainsSub (hay needle : String) : Bool :=
  listContainsSub needle.toList hay.toList

/-- generateFallbackResponseAnalysis: deterministic length and keyword
heuristics. -/
def generateFallbackResponseAnalysis (response : InterviewResponse)
    (config : InterviewConfigJS) : RespAnalysis :=
  let responseLength := response.response.length
  { responseAnalysis :=
      ⟨JNum.jmin (JNum.ofNat 95)
         (JNum.jmax (JNum.ofNat 60)
           (JNum.add (JNum.ofNat 70)
             (JNum.div (JNum.ofNat responseLength) (JNum.ofNat 50)))),
       (if response.response.toList.any (· = '.') then JNum.ofNat 75
        else JNum.ofNat 65),
       (if config.style = "technical" then JNum.ofNat 70 else JNum.ofNat 75),
       JNum.jmin (JNum.ofNat 90)
         (JNum.jmax (JNum.ofNat 60)
           (JNum.add (JNum.ofNat 65)
             (JNum.div (JNum.ofNat responseLength) (JNum.ofNat 40)))),
       (if strContainsSub (String.mk (response.response.toList.map Char.toLower))
              "i think" then JNum.ofNat 65
        else JNum.ofNat 75),
       JNum.ofNat 75⟩
    strengths := ["Shows understanding of the topic"]
    improvements := ["Add more specific examples"]
    feedback := "Good response with relevant content. Consider adding more specific examples."
    score := JNum.ofNat 75
    keyInsights := ["Response demonstrates understanding"]
    reasoning := "Fallback analysis based on response characteristics" }

/-- Oracle type of the ResponseAnalysis agent: response and 1-based
question number to an analysis, or a thrown agent failure. -/
def RespAgentOracle := InterviewResponse → Nat → Except Unit RespAnalysis

/-- The for loop of analyzeIndividualResponses, carried by the 0-based
index: per-response failures substitute the heuristic fallback. -/
def analyzeLoop (agentO : RespAgentOracle) (config : InterviewConfigJS) :
    Nat → List InterviewResponse → List RespEntry
  | _, [] => []
  | i, r :: rest =>
    (match agentO r (i + 1) with
     | .ok a => (⟨r.questionId, r.question, r.response, r.timestamp, a, false⟩ : RespEntry)
     | .error _ =>
       ⟨r.questionId, r.question, r.response, r.timestamp,
        generateFallbackResponseAnalysis r config, true⟩) ::
    analyzeLoop agentO config (i + 1) rest

def analyzeIndividualResponses (agentO : RespAgentOracle)
    (responses : List InterviewResponse) (config : InterviewConfigJS) :
    List RespEntry :=
  analyzeLoop agentO config 0 responses

structure OverallScores where
  clarity : JNum
  structure_ : JNum
  technical : JNum
  communication : JNum
  confidence : JNum
deriving DecidableEq, Repr

structure Trends where
  improvement : String
  consistency : String
  adaptability : String
deriving DecidableEq, Repr

structure OverallAnalysis where
  overallScore : JNum
  performanceLevel : String
  strengths : List String
  improvements : List String
  responseAnalysis : OverallScores
  trends : Trends
  recommendations : List String
  executiveSummary : String
  nextSteps : List String
deriving DecidableEq, Repr

/-- JS r.analysis.score || 70: the value 0 is falsy. -/
def jsOr70 (q : JNum) : JNum :=
  if q.num = 0 then JNum.ofInt 70 else q

/-- generateFallbackOverallAnalysis: average of the per-response scores,
with its own threshold table (80 for good, 60 for fair, never excellent). -/
def generateFallbackOverallAnalysis (responseAnalyses : List RespEntry)
    (config : InterviewConfigJS) : OverallAnalysis :=
  let avgScore :=
    JNum.div
      (responseAnalyses.foldl (fun sum r => JNum.add sum (jsOr70 r.analysis.score))
        (JNum.ofInt 0))
      (JNum.ofNat responseAnalyses.length)
  { overallScore := JNum.ofInt avgScore.jsRound
    performanceLevel :=
      if JNum.ble (JNum.ofNat 80) avgScore then "good"
      else if JNum.ble (JNum.ofNat 60) avgScore then "fair"
      else "needs_improvement"
    strengths := ["Shows understanding of core concepts"]
    improvements := ["Provide more specific examples"]
    responseAnalysis :=
      ⟨JNum.ofInt avgScore.jsRound,
       JNum.ofInt ((avgScore.sub (JNum.ofNat 5)).jsRound),
       JNum.ofInt avgScore.jsRound,
       JNum.ofInt avgScore.jsRound,
       JNum.ofInt ((avgScore.sub (JNum.ofNat 10)).jsRound)⟩
    trends := ⟨"consistent", "medium", "medium"⟩
    recommendations := ["Practice structured responses"]
    executiveSummary :=
      "Candidate demonstrated fair performance with room for improvement in " ++
        config.topic ++ "."
    nextSteps := ["Practice mock interviews"] }

structure OverallSessionMetadata where
  totalQuestions : Nat
  totalDuration : Nat
  averageResponseTime : JNum
  interviewStyle : String
  experienceLevel : String
deriving DecidableEq, Repr

def mkSessionMetadata (responses : List InterviewResponse)
    (config : InterviewConfigJS) : OverallSessionMetadata :=
  ⟨responses.length,
   (match responses with
    | [] => 0
    | r :: _ => ((responses.getLast? ).getD r).timestamp - r.timestamp),
   JNum.div (JNum.ofNat (responses.foldl (fun sum r => sum + r.duration) 0))
     (JNum.ofNat responses.length),
   config.style, config.experienceLevel⟩

/-- Oracle type of the OverallAnalysis agent. -/
def OverallAgentOracle :=
  List RespEntry → InterviewConfigJS → OverallSessionMetadata →
    Except Unit OverallAnalysis

/-- generateOverallAnalysis: agent once over all analyses, fallback on
failure. -/
def generateOverallAnalysis (overallO : OverallAgentOracle)
    (responseAnalyses : List RespEntry) (config : InterviewConfigJS)
    (responses : List InterviewResponse) : OverallAnalysis :=
  match overallO responseAnalyses config (mkSessionMetadata responses config) with
  | .ok a => a
  | .error _ => generateFallbackOverallAnalysis responseAnalyses config

structure QuestionReview where
  questionId : String
  question : String
  response : String
  score : JNum
  feedback : String
  strengths : List String
  improvements : List String
  detailedScores : RespScores
deriving DecidableEq, Repr

/-- The final report (generatedAt and the constant agentsUsed metadata
omitted). -/
structure FinalAnalytics where
  overallScore : JNum
  performanceLevel : String
  strengths : List String
  improvements : List String
  responseAnalysis : OverallScores
  trends : Trends
  recommendations : List String
  executiveSummary : String
  nextSteps : List String
  questionReviews : List QuestionReview
  analysisMethod : String
  totalResponses : Nat
  configMeta : InterviewConfigJS
deriving DecidableEq, Repr

/-- synthesizeFinalAnalytics: one question review per response analysis,
merged with the overall summary. -/
def synthesizeFinalAnalytics (responseAnalyses : List RespEntry)
    (overallAnalysis : OverallAnalysis) (config : InterviewConfigJS) :
    FinalAnalytics :=
  { overallScore := overallAnalysis.overallScore
    performanceLevel := overallAnalysis.performanceLevel
    strengths := overallAnalysis.strengths
    improvements := overallAnalysis.improvements
    responseAnalysis := overallAnalysis.responseAnalysis
    trends := overallAnalysis.trends
    recommendations := overallAnalysis.recommendations
    executiveSummary := overallAnalysis.executiveSummary
    nextSteps := overallAnalysis.nextSteps
    questionReviews :=
      responseAnalyses.map fun a =>
        ⟨a.questionId, a.question, a.response, a.analysis.score,
         a.analysis.feedback, a.analysis.strengths, a.analysis.improvements,
         a.analysis.responseAnalysis⟩
    analysisMethod := "agentic"
    totalResponses := responseAnalyses.length
    configMeta := config }

/-- Replace each maximal whitespace run by one underscore: the body of
the \s+ to underscore regex, carried by an inside-a-run flag. -/
def collapseWsAux (inRun : Bool) : List Char → List Char
  | [] => []
  | c :: rest =>
    if JSONParsingUtils.jsWsChar c then
      if inRun then collapseWsAux true rest
      else '_' :: collapseWsAux true rest
    else c :: collapseWsAux false rest

def collapseWsRun (cs : List Char) : List Char :=
  collapseWsAux false cs

/-- getSessionId: topic, style and first-response timestamp, whitespace
runs collapsed to underscores, lower-cased (the Date stringification is
rendered through the epoch value). -/
def getSessionId (config : InterviewConfigJS)
    (responses : List InterviewResponse) (now : Nat) : String :=
  let ts : Nat :=
    match responses with
    | [] => now
    | r :: _ => r.timestamp
  let raw := config.topic ++ "_" ++ config.style ++ "_" ++ toString ts
  String.mk ((collapseWsRun raw.toList).map Char.toLower)

def AnalysisCache := List (String × FinalAnalytics)

def cacheGet (cache : AnalysisCache) (k : String) : Option FinalAnalytics :=
  match cache with
  | [] => none
  | (k', v) :: rest => if k' = k then some v else cacheGet rest k

def cacheSet (cache : AnalysisCache) (k : String) (v : FinalAnalytics) :
    AnalysisCache :=
  match cache with
  | [] => [(k, v)]
  | (k', v') :: rest =>
    if k' = k then (k', v) :: rest else (k', v') :: cacheSet rest k v

/-- generateComprehensiveAnalytics: computes the session key, analyses
every response, synthesizes the report and writes it into the cache; the
cache is never consulted before computing. -/
def generateComprehensiveAnalytics (agentO : RespAgentOracle)
    (overallO : OverallAgentOracle) (cache : AnalysisCache) (now : Nat)
    (responses : List InterviewResponse) (config : InterviewConfigJS) :
    FinalAnalytics × AnalysisCache :=
  let sessionId := getSessionId config responses now
  let responseAnalyses := analyzeIndividualResponses agentO responses config
  let overallAnalysis :=
    generateOverallAnalysis overallO responseAnalyses config responses
  let finalAnalytics :=
    synthesizeFinalAnalytics responseAnalyses overallAnalysis config
  (finalAnalytics, cacheSet cache sessionId finalAnalytics)

end PerformanceAnalysisOrchestrator

/-! Spec-side definitions, written from the specification text to compare
against the source embeddings above. -/

/-- The maxQuestions formula as the spec states it (section 4.6): base
time per question by experience level, 4 to 8 minutes increasing with
seniority; style adjustment +1 technical, +2 case-study, +0.5 behavioral,
-0.5 hr, -1 salary-negotiation; floor(duration divided by the adjusted
time); clamped to the interval from 3 up to min(15, max(8,
floor(duration / 3))).  Half-minute amounts are carried exactly by
doubling both duration and time per question. -/
def specMaxQuestions (duration : Nat) (experienceLevel style : String) : Nat :=
  let baseTwice : Int :=
    if experienceLevel = "fresher" then 8
    else if experienceLevel = "junior" then 10
    else if experienceLevel = "mid-level" then 12
    else if experienceLevel = "senior" then 14
    else if experienceLevel = "lead-manager" then 16
    else 12
  let adjTwice : Int :=
    if style = "technical" then 2
    else if style = "case-study" then 4
    else if style = "behavioral" then 1
    else if style = "hr" then -1
    else if style = "salary-negotiation" then -2
    else 0
  let raw : Nat := ((2 * (duration : Int)) / (baseTwice + adjTwice)).toNat
  let upper : Nat := min 15 (max 8 (duration / 3))
  max 3 (min upper raw)

/-- The fixed performance-level threshold table the spec states: at least
85 excellent, at least 70 good, at least 60 fair, otherwise
needs_improvement. -/
def specPerformanceLevel (score : JNum) : String :=
  if JNum.ble (JNum.ofNat 85) score then "excellent"
  else if JNum.ble (JNum.ofNat 70) score then "good"
  else if JNum.ble (JNum.ofNat 60) score then "fair"
  else "needs_improvement"

/-- Did an Except-returning operation succeed? -/
def exceptIsOk {ε α : Type} : Except ε α → Bool
  | .ok _ => true
  | .error _ => false

/-! Shared sample values for concrete instances. -/

def sampleConfig : VoiceInterviewService.InterviewConfigJS :=
  ⟨"React", "technical", "junior", "", 30⟩

def completedSession : VoiceInterviewService.VoiceSession :=
  ⟨"s1", "s1", sampleConfig, "alice", 0, 3,
   [.str "q1", .str "q2", .str "q3"], [], .completed, none, 0, none⟩

def completedSvc : VoiceInterviewService.ServiceState :=
  [("s1", completedSession)]

/-- The status of a stored session after an operation. -/
def statusAfter (svc : VoiceInterviewService.ServiceState) (sid : String) :
    Option VoiceInterviewService.SessStatus :=
  (VoiceInterviewService.lookupSession svc sid).map (·.status)

/-! Lookup/update lemmas on the session map. -/

namespace VoiceInterviewService

theorem lookup_set (svc : ServiceState) (k : String) (v : VoiceSession)
    (sid : String) :
    lookupSession (setSession svc k v) sid =
      if k = sid then some v else lookupSession svc sid := by
  induction svc with
  | nil =>
    by_cases h : k = sid <;> simp [setSession, lookupSession, h]
  | cons p rest ih =>
    obtain ⟨k', s'⟩ := p
    by_cases h1 : k' = k
    · subst h1
      by_cases h2 : k' = sid <;> simp [setSession, lookupSession, h2]
    · by_cases h2 : k' = sid
      · subst h2
        have hks : ¬ k = k' := fun h => h1 h.symm
        simp [setSession, lookupSession, h1, hks]
      · simp [setSession, lookupSession, h1, h2, ih]

theorem lookup_set_self (svc : ServiceState) (k : String) (v : VoiceSession) :
    lookupSession (setSession svc k v) k = some v := by
  rw [lookup_set]
  simp

end VoiceInterviewService

/-- C9: the source maxQuestions is a pure function of its input; at
duration 30 its value lies within the claimed range 3 to 15; and doubling
the duration never decreases it. -/
theorem calculateTotalQuestions_bounds_monotone :
    (3 ≤ VoiceInterviewService.calculateTotalQuestions 30 ∧
     VoiceInterviewService.calculateTotalQuestions 30 ≤ 15) ∧
    ∀ d : Nat, VoiceInterviewService.calculateTotalQuestions d ≤
      VoiceInterviewService.calculateTotalQuestions (2 * d) := by
  constructor
  · constructor <;> decide
  · intro d
    unfold VoiceInterviewService.calculateTotalQuestions
    have h : d / 15 ≤ 2 * d / 15 := Nat.div_le_div_right (by omega)
    exact min_le_min (max_le_max (le_refl 3) h) (le_refl 8)

/-- C2 counterexample: at duration 90 the source computes 6 regardless of
experience level and style, while the spec formula for a junior technical
interview yields 15. -/
theorem calculateTotalQuestions_spec_formula_counterexample :
    VoiceInterviewService.calculateTotalQuestions 90 = 6 ∧
    specMaxQuestions 90 "junior" "technical" = 15 ∧
    VoiceInterviewService.calculateTotalQuestions 90 ≠
      specMaxQuestions 90 "junior" "technical" := by
  refine ⟨by decide, by decide, by decide⟩

/-- C2 amended: maxQuestions is floor(duration / 15) clamped into the
interval from 3 to 8, a function of the duration alone; experience level
and style never enter the computation. -/
theorem calculateTotalQuestions_duration_only :
    ∀ d : Nat,
      VoiceInterviewService.calculateTotalQuestions d = min (max 3 (d / 15)) 8 ∧
      3 ≤ VoiceInterviewService.calculateTotalQuestions d ∧
      VoiceInterviewService.calculateTotalQuestions d ≤ 8 := by
  intro d
  refine ⟨rfl, ?_, ?_⟩
  · unfold VoiceInterviewService.calculateTotalQuestions
    exact le_min (le_max_left 3 (d / 15)) (by omega)
  · unfold VoiceInterviewService.calculateTotalQuestions
    exact min_le_right _ 8

/-- The stored responses of a session after an operation. -/
def responsesAfter (svc : VoiceInterviewService.ServiceState) (sid : String) :
    Option (List VoiceInterviewService.StoredResponse) :=
  (VoiceInterviewService.lookupSession svc sid).map (·.responses)

/-- C4 counterexample: pausing a completed session moves its status to
paused, so completed is left by a Session Manager operation. -/
theorem completed_not_terminal_counterexample :
    statusAfter (VoiceInterviewService.pauseInterview completedSvc "s1" 1000).1 "s1" =
      some .paused ∧
    VoiceInterviewService.SessStatus.paused ≠
      VoiceInterviewService.SessStatus.completed := by
  exact ⟨rfl, by decide⟩

/-- C4 amended: on a completed session, submit-response and end leave the
status at completed and reconnect does not touch the state, but pause
moves it to paused and resume to active: completed is not terminal. -/
theorem completed_transitions
    (svc : VoiceInterviewService.ServiceState) (sid : String)
    (s : VoiceInterviewService.VoiceSession)
    (tr : String) (am : Json) (now : Nat) (ao qo aoE : Except Unit Json)
    (tokO : Except Unit String)
    (hl : VoiceInterviewService.lookupSession svc sid = some s)
    (hc : s.status = .completed) :
    statusAfter (VoiceInterviewService.pauseInterview svc sid now).1 sid =
      some .paused ∧
    statusAfter (VoiceInterviewService.resumeInterview svc sid now).1 sid =
      some .active ∧
    statusAfter
      (VoiceInterviewService.processVoiceResponse svc sid tr am now ao qo).1 sid =
      some .completed ∧
    statusAfter (VoiceInterviewService.endInterview svc sid now aoE).1 sid =
      some .completed ∧
    (VoiceInterviewService.reconnectToSession svc sid tokO).1 = svc := by
  open VoiceInterviewService in
  refine ⟨?_, ?_, ?_, ?_, ?_⟩
  · simp [pauseInterview, hl, statusAfter, lookup_set_self]
  · cases hpa : s.pausedAt <;>
      simp [resumeInterview, hl, statusAfter, lookup_set_self, hpa]
  · unfold processVoiceResponse
    rw [hl]
    simp only
    split
    · unfold generateNextQuestion
      rw [lookup_set_self]
      cases qo with
      | error e =>
        simp [statusAfter, lookup_set_self, hc]
      | ok q =>
        simp [statusAfter, lookup_set_self, hc]
    · simp [statusAfter, lookup_set_self]
  · cases aoE <;> simp [endInterview, hl, statusAfter, lookup_set_self, hc]
  · cases tokO <;> simp [reconnectToSession, hl]

/-- C4 witness: the amended theorem applied to a concrete completed
session. -/
theorem completed_transitions_witness :
    statusAfter
      (VoiceInterviewService.pauseInterview completedSvc "s1" 1000).1 "s1" =
      some .paused ∧
    statusAfter
      (VoiceInterviewService.resumeInterview completedSvc "s1" 1000).1 "s1" =
      some .active ∧
    statusAfter
      (VoiceInterviewService.processVoiceResponse completedSvc "s1" "my answer"
        (.obj []) 1000 (.error ()) (.error ())).1 "s1" = some .completed ∧
    statusAfter
      (VoiceInterviewService.endInterview completedSvc "s1" 1000 (.error ())).1
      "s1" = some .completed ∧
    (VoiceInterviewService.reconnectToSession completedSvc "s1"
      (.ok "tok")).1 = completedSvc :=
  completed_transitions completedSvc "s1" completedSession "my answer"
    (.obj []) 1000 (.error ()) (.error ()) (.error ()) (.ok "tok")
    (by rfl) (by rfl)

/-- C3 counterexample: submitting a response to a completed session does
not raise a session-state error; the call succeeds and the response is
appended. -/
theorem processVoiceResponse_completed_counterexample :
    exceptIsOk
      (VoiceInterviewService.processVoiceResponse completedSvc "s1" "my answer"
        (.obj []) 1000 (.error ()) (.error ())).2 = true ∧
    (responsesAfter
      (VoiceInterviewService.processVoiceResponse completedSvc "s1" "my answer"
        (.obj []) 1000 (.error ()) (.error ())).1 "s1").map List.length =
      some 1 := by
  exact ⟨rfl, rfl⟩

/-- C3 amended: on any found session, completed ones included,
processVoiceResponse succeeds and appends the response record; the
session status is never examined and only a missing session id raises an
error. -/
theorem processVoiceResponse_completed_appends
    (svc : VoiceInterviewService.ServiceState) (sid : String)
    (s : VoiceInterviewService.VoiceSession)
    (tr : String) (am : Json) (now : Nat) (ao qo : Except Unit Json)
    (hl : VoiceInterviewService.lookupSession svc sid = some s)
    (hc : s.status = .completed) :
    exceptIsOk
      (VoiceInterviewService.processVoiceResponse svc sid tr am now ao qo).2 =
      true ∧
    responsesAfter
      (VoiceInterviewService.processVoiceResponse svc sid tr am now ao qo).1
      sid =
      some (s.responses ++ [VoiceInterviewService.mkResponseRecord s tr am now]) := by
  open VoiceInterviewService in
  constructor
  · unfold processVoiceResponse
    rw [hl]
    simp only
    split
    · unfold generateNextQuestion
      rw [lookup_set_self]
      cases qo <;> simp [exceptIsOk]
    · simp [exceptIsOk]
  · unfold processVoiceResponse
    rw [hl]
    simp only
    split
    · unfold generateNextQuestion
      rw [lookup_set_self]
      cases qo with
      | error e =>
        simp [responsesAfter, lookup_set_self]
      | ok q =>
        simp [responsesAfter, lookup_set_self]
    · simp [responsesAfter, lookup_set_self]

namespace VoiceInterviewService

theorem balanced_nil : SessionsBalanced [] := by
  intro sid s hs
  simp [lookupSession] at hs

theorem balanced_set {svc : ServiceState} {k : String} {v : VoiceSession}
    (h : SessionsBalanced svc)
    (hv : v.questions.length = v.currentQuestionIndex) :
    SessionsBalanced (setSession svc k v) := by
  intro sid s hs
  rw [lookup_set] at hs
  by_cases hk : k = sid
  · rw [if_pos hk] at hs
    cases hs
    exact hv
  · rw [if_neg hk] at hs
    exact h sid s hs

theorem genNext_balanced (svc : ServiceState) (sid : String)
    (qo : Except Unit Json) (h : SessionsBalanced svc) :
    SessionsBalanced (generateNextQuestion svc sid qo).1 := by
  unfold generateNextQuestion
  cases hl : lookupSession svc sid with
  | none => simpa using h
  | some s =>
    cases qo with
    | error e => simpa using h
    | ok q =>
      simp only
      apply balanced_set h
      have hb := h sid s hl
      simp [hb]

theorem process_balanced (svc : ServiceState) (sid : String)
    (tr : String) (am : Json) (now : Nat) (ao qo : Except Unit Json)
    (h : SessionsBalanced svc) :
    SessionsBalanced (processVoiceResponse svc sid tr am now ao qo).1 := by
  unfold processVoiceResponse
  cases hl : lookupSession svc sid with
  | none => simpa using h
  | some s =>
    simp only
    have hs1 : ({ s with responses :=
        s.responses ++ [mkResponseRecord s tr am now] } :
        VoiceSession).questions.length =
        ({ s with responses := s.responses ++ [mkResponseRecord s tr am now] } :
          VoiceSession).currentQuestionIndex := h sid s hl
    have hP : SessionsBalanced (setSession svc sid
        { s with responses := s.responses ++ [mkResponseRecord s tr am now] }) :=
      balanced_set h hs1
    split
    · unfold generateNextQuestion
      rw [lookup_set_self]
      cases qo with
      | error e =>
        simp only [lookup_set_self, Option.getD_some]
        exact balanced_set hP hs1
      | ok q =>
        simp only [lookup_set_self, Option.getD_some]
        apply balanced_set
        · apply balanced_set hP
          simp [hs1]
        · simp [hs1]
    · apply balanced_set
      · exact balanced_set hP hs1
      · exact hs1

theorem pause_balanced (svc : ServiceState) (sid : String) (now : Nat)
    (h : SessionsBalanced svc) :
    SessionsBalanced (pauseInterview svc sid now).1 := by
  unfold pauseInterview
  cases hl : lookupSession svc sid with
  | none => simpa using h
  | some s =>
    simp only
    exact balanced_set h (h sid s hl)

theorem resume_balanced (svc : ServiceState) (sid : String) (now : Nat)
    (h : SessionsBalanced svc) :
    SessionsBalanced (resumeInterview svc sid now).1 := by
  unfold resumeInterview
  cases hl : lookupSession svc sid with
  | none => simpa using h
  | some s =>
    cases hpa : s.pausedAt with
    | none =>
      simp only [hpa]
      exact balanced_set h (h sid s hl)
    | some t =>
      simp only [hpa]
      exact balanced_set h (h sid s hl)

theorem end_balanced (svc : ServiceState) (sid : String) (now : Nat)
    (ao : Except Unit Json) (h : SessionsBalanced svc) :
    SessionsBalanced (endInterview svc sid now ao).1 := by
  unfold endInterview
  cases hl : lookupSession svc sid with
  | none => simpa using h
  | some s =>
    cases ao with
    | error e =>
      simp only
      exact balanced_set h (h sid s hl)
    | ok a =>
      simp only
      exact balanced_set h (h sid s hl)

theorem followUp_fst (svc : ServiceState) (sid : String)
    (fo : Except Unit Json) : (generateFollowUp svc sid fo).1 = svc := by
  unfold generateFollowUp
  cases lookupSession svc sid with
  | none => rfl
  | some s => cases fo <;> rfl

theorem reconnect_fst (svc : ServiceState) (sid : String)
    (tokO : Except Unit String) : (reconnectToSession svc sid tokO).1 = svc := by
  unfold reconnectToSession
  cases lookupSession svc sid with
  | none => rfl
  | some s => cases tokO <;> rfl

theorem start_balanced (svc : ServiceState)
    (cfg : InterviewConfigJS) (pn : String) (now : Nat)
    (roomO : Except Unit RoomData) (qo : Except Unit Json)
    (h : SessionsBalanced svc) :
    SessionsBalanced (startVoiceInterview svc cfg pn now roomO qo).1 := by
  unfold startVoiceInterview
  cases roomO with
  | error e => simpa using h
  | ok rd =>
    simp only
    have hP : SessionsBalanced (setSession svc rd.roomName
        ⟨rd.roomName, rd.roomName, cfg, pn, now, 0, [], [], .waiting, none, 0, none⟩) :=
      balanced_set h rfl
    unfold generateNextQuestion
    rw [lookup_set_self]
    cases qo with
    | error e => exact hP
    | ok q =>
      simp only
      apply balanced_set hP
      simp

end VoiceInterviewService

/-- C10: every service state reachable through the Session Manager
operations keeps, for every stored session, the number of handed-out
questions equal to the current question index; the spec invariant
questions.length at most currentQuestionIndex holds with equality. -/
theorem reachable_questions_eq_index :
    ∀ svc, VoiceInterviewService.ReachableVIS svc →
      VoiceInterviewService.SessionsBalanced svc := by
  intro svc h
  induction h with
  | init => exact VoiceInterviewService.balanced_nil
  | step hr hst ih =>
    cases hst with
    | start cfg pn now roomO qo =>
      exact VoiceInterviewService.start_balanced _ cfg pn now roomO qo ih
    | genNext sid qo =>
      exact VoiceInterviewService.genNext_balanced _ sid qo ih
    | process sid tr am now ao qo =>
      exact VoiceInterviewService.process_balanced _ sid tr am now ao qo ih
    | followUp sid fo =>
      rw [VoiceInterviewService.followUp_fst]
      exact ih
    | pause sid now =>
      exact VoiceInterviewService.pause_balanced _ sid now ih
    | resume sid now =>
      exact VoiceInterviewService.resume_balanced _ sid now ih
    | endI sid now ao =>
      exact VoiceInterviewService.end_balanced _ sid now ao ih
    | reconnect sid tokO =>
      rw [VoiceInterviewService.reconnect_fst]
      exact ih

def sampleRoomData : VoiceInterviewService.RoomData :=
  ⟨"room1", "ws", "ptok", "itok"⟩

/-- C10 witness: the invariant read off a concrete reachable state, one
started interview with its first question handed out. -/
theorem reachable_questions_eq_index_witness :
    VoiceInterviewService.SessionsBalanced
      (VoiceInterviewService.startVoiceInterview [] sampleConfig "alice" 0
        (.ok sampleRoomData) (.ok (.str "Q1"))).1 :=
  reachable_questions_eq_index _
    (.step .init
      (.start [] sampleConfig "alice" 0 (.ok sampleRoomData) (.ok (.str "Q1"))))

/-- C3 witness: the amended theorem applied to a concrete completed
session. -/
theorem processVoiceResponse_completed_appends_witness :
    exceptIsOk
      (VoiceInterviewService.processVoiceResponse completedSvc "s1" "ans"
        (.obj []) 2000 (.error ()) (.error ())).2 = true ∧
    responsesAfter
      (VoiceInterviewService.processVoiceResponse completedSvc "s1" "ans"
        (.obj []) 2000 (.error ()) (.error ())).1 "s1" =
      some (completedSession.responses ++
        [VoiceInterviewService.mkResponseRecord completedSession "ans"
          (.obj []) 2000]) :=
  processVoiceResponse_completed_appends completedSvc "s1" completedSession
    "ans" (.obj []) 2000 (.error ()) (.error ()) (by rfl) (by rfl)

/-! Cache behaviour of the Performance-Analysis Orchestrator (C5) and the
per-response fan-out (C8). -/

/-- C5 amended: the report is computed without ever consulting the cache
(the result is invariant under the cache contents), and each invocation
writes the freshly computed report into the cache under the session key;
a repeated call therefore recomputes instead of returning the stored
report. -/
theorem generateComprehensiveAnalytics_ignores_cache :
    ∀ (agentO : PerformanceAnalysisOrchestrator.RespAgentOracle)
      (overallO : PerformanceAnalysisOrchestrator.OverallAgentOracle)
      (cache : PerformanceAnalysisOrchestrator.AnalysisCache) (now : Nat)
      (responses : List PerformanceAnalysisOrchestrator.InterviewResponse)
      (config : VoiceInterviewService.InterviewConfigJS),
      (PerformanceAnalysisOrchestrator.generateComprehensiveAnalytics agentO
        overallO cache now responses config).1 =
        (PerformanceAnalysisOrchestrator.generateComprehensiveAnalytics agentO
          overallO [] now responses config).1 ∧
      (PerformanceAnalysisOrchestrator.generateComprehensiveAnalytics agentO
        overallO cache now responses config).2 =
        PerformanceAnalysisOrchestrator.cacheSet cache
          (PerformanceAnalysisOrchestrator.getSessionId config responses now)
          (PerformanceAnalysisOrchestrator.generateComprehensiveAnalytics agentO
            overallO cache now responses config).1 := by
  intro agentO overallO cache now responses config
  exact ⟨rfl, rfl⟩

def cfgO : VoiceInterviewService.InterviewConfigJS :=
  ⟨"react", "technical", "junior", "", 30⟩

def respO : PerformanceAnalysisOrchestrator.InterviewResponse :=
  ⟨"q1", "Q", "my answer", 5, 100⟩

/-- A stale report sitting in the cache under the session key. -/
def staleReport : PerformanceAnalysisOrchestrator.FinalAnalytics :=
  ⟨JNum.ofInt 0, "needs_improvement", [], [],
   ⟨JNum.ofInt 0, JNum.ofInt 0, JNum.ofInt 0, JNum.ofInt 0, JNum.ofInt 0⟩,
   ⟨"consistent", "medium", "medium"⟩, [], "", [], [], "agentic", 0, cfgO⟩

def cacheO : PerformanceAnalysisOrchestrator.AnalysisCache :=
  [(PerformanceAnalysisOrchestrator.getSessionId cfgO [respO] 99, staleReport)]

/-- C5 counterexample: with a report already cached under the very session
key, a call recomputes and returns a different report instead of the
cached one. -/
theorem analytics_cache_not_returned_counterexample :
    PerformanceAnalysisOrchestrator.cacheGet cacheO
      (PerformanceAnalysisOrchestrator.getSessionId cfgO [respO] 99) =
      some staleReport ∧
    (PerformanceAnalysisOrchestrator.generateComprehensiveAnalytics
      (fun _ _ => .error ()) (fun _ _ _ => .error ()) cacheO 99 [respO]
      cfgO).1.overallScore = JNum.ofInt 75 ∧
    (PerformanceAnalysisOrchestrator.generateComprehensiveAnalytics
      (fun _ _ => .error ()) (fun _ _ _ => .error ()) cacheO 99 [respO]
      cfgO).1 ≠ staleReport := by
  refine ⟨by rfl, by rfl, by decide⟩

namespace PerformanceAnalysisOrchestrator

/-- The question review produced for one response and its analysis. -/
def reviewOf (resp : InterviewResponse) (a : RespAnalysis) : QuestionReview :=
  ⟨resp.questionId, resp.question, resp.response, a.score, a.feedback,
   a.strengths, a.improvements, a.responseAnalysis⟩

theorem analyzeLoop_length (agentO : RespAgentOracle)
    (config : VoiceInterviewService.InterviewConfigJS) :
    ∀ (rs : List InterviewResponse) (k : Nat),
      (analyzeLoop agentO config k rs).length = rs.length := by
  intro rs
  induction rs with
  | nil => intro k; simp [analyzeLoop]
  | cons r rest ih =>
    intro k
    simp [analyzeLoop, ih (k + 1)]

theorem analyzeLoop_get (agentO : RespAgentOracle)
    (config : VoiceInterviewService.InterviewConfigJS) :
    ∀ (rs : List InterviewResponse) (k i : Nat),
      (analyzeLoop agentO config k rs).get? i =
        (rs.get? i).map (fun resp =>
          match agentO resp (k + i + 1) with
          | .ok a =>
            (⟨resp.questionId, resp.question, resp.response, resp.timestamp,
              a, false⟩ : RespEntry)
          | .error _ =>
            ⟨resp.questionId, resp.question, resp.response, resp.timestamp,
             generateFallbackResponseAnalysis resp config, true⟩) := by
  intro rs
  induction rs with
  | nil => intro k i; simp [analyzeLoop]
  | cons r rest ih =>
    intro k i
    cases i with
    | zero => simp [analyzeLoop]
    | succ i =>
      have harith : k + 1 + i + 1 = k + (i + 1) + 1 := by omega
      simp only [analyzeLoop, List.get?_cons_succ]
      rw [ih (k + 1) i, harith]

end PerformanceAnalysisOrchestrator

namespace PerformanceAnalysisOrchestrator

/-- The average the fallback overall analysis computes: sum of the
falsy-guarded scores divided by the number of analyses. -/
def fallbackAvgScore (entries : List RespEntry) : JNum :=
  JNum.div
    (entries.foldl (fun sum r => JNum.add sum (jsOr70 r.analysis.score))
      (JNum.ofInt 0))
    (JNum.ofNat entries.length)

/-- A score within bounds stays within bounds through the falsy guard. -/
theorem jsOr70_bounds {q : JNum} (hw : q.WF)
    (h0 : JNum.ble (JNum.ofInt 0) q = true)
    (h100 : JNum.ble q (JNum.ofInt 100) = true) :
    (jsOr70 q).WF ∧ 0 ≤ (jsOr70 q).toRat ∧ (jsOr70 q).toRat ≤ 100 := by
  unfold jsOr70
  by_cases hz : q.num = 0
  · rw [if_pos hz]
    refine ⟨JNum.ofInt_wf 70, ?_, ?_⟩ <;> rw [JNum.toRat_ofInt] <;> norm_num
  · rw [if_neg hz]
    have hl := (JNum.ble_iff_le (JNum.ofInt_wf 0) hw).mp h0
    have hr := (JNum.ble_iff_le hw (JNum.ofInt_wf 100)).mp h100
    rw [JNum.toRat_ofInt] at hl hr
    refine ⟨hw, ?_, ?_⟩
    · exact_mod_cast hl
    · exact_mod_cast hr

/-- Bounds of the score fold, generalized over the accumulator. -/
theorem scoreFold_bounds :
    ∀ (entries : List RespEntry),
      (∀ e ∈ entries, e.analysis.score.WF ∧
        JNum.ble (JNum.ofInt 0) e.analysis.score = true ∧
        JNum.ble e.analysis.score (JNum.ofInt 100) = true) →
      ∀ init : JNum, init.WF →
        (entries.foldl (fun sum r => JNum.add sum (jsOr70 r.analysis.score))
          init).WF ∧
        init.toRat ≤
          (entries.foldl (fun sum r => JNum.add sum (jsOr70 r.analysis.score))
            init).toRat ∧
        (entries.foldl (fun sum r => JNum.add sum (jsOr70 r.analysis.score))
          init).toRat ≤ init.toRat + 100 * entries.length := by
  intro entries
  induction entries with
  | nil =>
    intro _ init hinit
    refine ⟨hinit, le_refl _, ?_⟩
    simp
  | cons e rest ih =>
    intro hb init hinit
    have he := hb e (List.mem_cons_self e rest)
    have hterm := jsOr70_bounds he.1 he.2.1 he.2.2
    have hWF1 : (JNum.add init (jsOr70 e.analysis.score)).WF :=
      JNum.add_wf hinit hterm.1
    have htr : (JNum.add init (jsOr70 e.analysis.score)).toRat =
        init.toRat + (jsOr70 e.analysis.score).toRat :=
      JNum.toRat_add hinit hterm.1
    have hrest := ih (fun x hx => hb x (List.mem_cons_of_mem e hx))
      (JNum.add init (jsOr70 e.analysis.score)) hWF1
    refine ⟨hrest.1, ?_, ?_⟩
    · calc init.toRat
          ≤ (JNum.add init (jsOr70 e.analysis.score)).toRat := by
            rw [htr]; linarith [hterm.2.1]
        _ ≤ _ := hrest.2.1
    · calc (List.foldl (fun sum r => JNum.add sum (jsOr70 r.analysis.score))
            (JNum.add init (jsOr70 e.analysis.score)) rest).toRat
          ≤ (JNum.add init (jsOr70 e.analysis.score)).toRat +
            100 * rest.length := hrest.2.2
        _ ≤ init.toRat + 100 * (e :: rest).length := by
            rw [htr]
            push_cast [List.length_cons]
            linarith [hterm.2.2]

/-- Bounds and well-formedness of the fallback average. -/
theorem fallbackAvgScore_bounds (entries : List RespEntry)
    (hne : entries ≠ [])
    (hb : ∀ e ∈ entries, e.analysis.score.WF ∧
      JNum.ble (JNum.ofInt 0) e.analysis.score = true ∧
      JNum.ble e.analysis.score (JNum.ofInt 100) = true) :
    (fallbackAvgScore entries).WF ∧
    0 ≤ (fallbackAvgScore entries).toRat ∧
    (fallbackAvgScore entries).toRat ≤ 100 := by
  have hn : entries.length ≠ 0 := by
    intro h
    exact hne (List.length_eq_zero.mp h)
  have hnum : (JNum.ofNat entries.length).num ≠ 0 := by
    show ((entries.length : Nat) : Int) ≠ 0
    exact_mod_cast hn
  have hsum := scoreFold_bounds entries hb (JNum.ofInt 0) (JNum.ofInt_wf 0)
  have hzero : (JNum.ofInt 0).toRat = 0 := by
    rw [JNum.toRat_ofInt]; norm_num
  rw [hzero] at hsum
  have hWF : (fallbackAvgScore entries).WF :=
    JNum.div_wf hsum.1 hnum
  have hdiv : (fallbackAvgScore entries).toRat =
      (entries.foldl (fun sum r => JNum.add sum (jsOr70 r.analysis.score))
        (JNum.ofInt 0)).toRat / (JNum.ofNat entries.length).toRat :=
    JNum.toRat_div hsum.1 (JNum.ofNat_wf entries.length) hnum
  have hnQ : (0 : Rat) < (JNum.ofNat entries.length).toRat := by
    rw [JNum.toRat_ofNat]
    exact_mod_cast Nat.pos_of_ne_zero hn
  refine ⟨hWF, ?_, ?_⟩
  · rw [hdiv]
    exact div_nonneg hsum.2.1 (le_of_lt hnQ)
  · rw [hdiv, div_le_iff hnQ]
    have := hsum.2.2
    rw [JNum.toRat_ofNat]
    linarith [hsum.2.2]

end PerformanceAnalysisOrchestrator

namespace JSONParsingUtils

/-- On total failure, parseRobustJSON returns exactly the failure record:
no data, the failure method, the error text, the truncated original. -/
theorem parseRobustJSON_failure_shape (s : String)
    (h : (parseRobustJSON s).success = false) :
    parseRobustJSON s =
      ⟨false, none, "failed", some "All JSON parsing strategies failed",
       some (strTake s 500)⟩ := by
  unfold parseRobustJSON at h ⊢
  cases h1 : parseJson s with
  | some j => simp [h1] at h
  | none =>
    cases h2 : parseJson (cleanLLMResponse s) with
    | some j => simp [h1, h2] at h
    | none =>
      cases h3 : (match extractJSONFromText s with
                  | some e => parseJson e
                  | none => none) with
      | some j => simp [h1, h2, h3] at h
      | none =>
        cases h4 : (match advancedJSONExtraction s with
                    | some e => parseJson e
                    | none => none) with
        | some j => simp [h1, h2, h3, h4] at h
        | none => simp [h1, h2, h3, h4]

end JSONParsingUtils

namespace JSONParsingUtils

/-- Claim-side conformance of a present value to its rule: arrays are
arrays, objects objects, numbers are numbers within the rule bounds, any
other declared type agrees with the JS typeof. -/
def specTypeOk (t : String) (v : Json) (r : Rule) : Bool :=
  if t = "array" then v.isArr
  else if t = "object" then v.isObj
  else if t = "number" then
    (match v with
     | .num q =>
       (match r.min with
        | some m => JNum.ble m q
        | none => true) &&
       (match r.max with
        | some M => JNum.ble q M
        | none => true)
     | _ => false)
  else Json.jsTypeof v = t

/-- Claim-side conformance of an object to one schema entry. -/
def ruleConformant (fields : List (String × Json)) (nm : String) (r : Rule) :
    Bool :=
  (!r.required || (Json.getField fields nm).isSome) &&
  (match Json.getField fields nm, r.type with
   | some v, some t => specTypeOk t v r
   | _, _ => true)

/-- Claim-side: the parsed input is an object meeting every schema rule. -/
def schemaConformant (schema : List (String × Rule)) (j : Json) : Bool :=
  match j with
  | .obj fields => schema.all (fun p => ruleConformant fields p.1 p.2)
  | _ => false

/-- How many array-typed schema fields the object carries: exactly the
validation errors the typeof check raises on conforming input. -/
def countPresentArrayFields (schema : List (String × Rule)) (j : Json) : Nat :=
  match j with
  | .obj fields =>
    (schema.filter
      (fun p => p.2.type = some "array" && (Json.getField fields p.1).isSome)).length
  | _ => 0

/-- No built-in rule coerces an array-typed field. -/
def arrayNoCoerce (schema : List (String × Rule)) : Prop :=
  ∀ p ∈ schema, p.2.type = some "array" → p.2.coerce = false

theorem createSchema_arrayNoCoerce (t : String) :
    arrayNoCoerce (createSchema t) := by
  unfold arrayNoCoerce createSchema
  split <;> decide

end JSONParsingUtils

namespace JNum

theorem blt_eq_not_ble (a b : JNum) : JNum.blt a b = !JNum.ble b a := by
  unfold blt ble
  by_cases h : b.num * (a.den : Int) ≤ a.num * (b.den : Int)
  · simp [h, not_lt.mpr h]
  · simp [h, lt_of_not_le h]

end JNum

namespace JSONParsingUtils

/-- On a conforming present value, the validation loop body leaves the
fields untouched and raises exactly one typeof error when the rule type
is array (JS typeof reports object for arrays), and none otherwise. -/
theorem validateField_conformant (fields : List (String × Json)) (nm : String)
    (r : Rule) (hP : r.type = some "array" → r.coerce = false)
    (hc : ruleConformant fields nm r = true) :
    validateField fields nm r =
      (fields,
       if r.type = some "array" && (Json.getField fields nm).isSome
       then ["Field " ++ nm ++ " should be " ++ "array" ++ ", got " ++ "object"]
       else []) := by
  unfold ruleConformant at hc
  rw [Bool.and_eq_true] at hc
  obtain ⟨hreq, htype⟩ := hc
  unfold validateField
  cases hget : Json.getField fields nm with
  | none =>
    have hreqF : r.required = false := by
      rw [hget] at hreq
      simpa using hreq
    simp [hget, hreqF]
  | some v =>
    rw [hget] at htype
    cases hty : r.type with
    | none =>
      simp [hget, hty]
    | some t =>
      rw [hty] at htype
      have hst : specTypeOk t v r = true := htype
      by_cases harr : t = "array"
      · subst harr
        have hisarr : v.isArr = true := hst
        have hco : r.coerce = false := hP hty
        cases v with
        | arr xs =>
          simp [hget, hty, hco, Json.jsTypeof, Json.isArr]
        | null => exact Bool.noConfusion hisarr
        | bool b => exact Bool.noConfusion hisarr
        | num q => exact Bool.noConfusion hisarr
        | str s => exact Bool.noConfusion hisarr
        | obj fs => exact Bool.noConfusion hisarr
      · by_cases hobj : t = "object"
        · subst hobj
          have hisobj : v.isObj = true := hst
          cases v with
          | obj fs =>
            simp [hget, hty, Json.jsTypeof]
          | null => exact Bool.noConfusion hisobj
          | bool b => exact Bool.noConfusion hisobj
          | num q => exact Bool.noConfusion hisobj
          | str s => exact Bool.noConfusion hisobj
          | arr xs => exact Bool.noConfusion hisobj
        · by_cases hnum : t = "number"
          · subst hnum
            cases v with
            | num q =>
              have hbounds :
                  ((match r.min with
                    | some m => JNum.ble m q
                    | none => true) &&
                   (match r.max with
                    | some M => JNum.ble q M
                    | none => true)) = true := hst
              rw [Bool.and_eq_true] at hbounds
              obtain ⟨hmin, hmax⟩ := hbounds
              cases hmn : r.min with
              | none =>
                cases hmx : r.max with
                | none =>
                  simp [hget, hty, Json.jsTypeof, hmn, hmx]
                | some M =>
                  rw [hmx] at hmax
                  have hbM : JNum.ble q M = true := hmax
                  have hbltM : JNum.blt M q = false := by
                    rw [JNum.blt_eq_not_ble, hbM]
                    rfl
                  simp [hget, hty, Json.jsTypeof, hmn, hmx, hbltM]
              | some m =>
                rw [hmn] at hmin
                have hbm : JNum.ble m q = true := hmin
                have hbltm : JNum.blt q m = false := by
                  rw [JNum.blt_eq_not_ble, hbm]
                  rfl
                cases hmx : r.max with
                | none =>
                  simp [hget, hty, Json.jsTypeof, hmn, hmx, hbltm]
                | some M =>
                  rw [hmx] at hmax
                  have hbM : JNum.ble q M = true := hmax
                  have hbltM : JNum.blt M q = false := by
                    rw [JNum.blt_eq_not_ble, hbM]
                    rfl
                  simp [hget, hty, Json.jsTypeof, hmn, hmx, hbltm, hbltM]
            | null => exact Bool.noConfusion hst
            | bool b => exact Bool.noConfusion hst
            | str s => exact Bool.noConfusion hst
            | arr xs => exact Bool.noConfusion hst
            | obj fs => exact Bool.noConfusion hst
          · unfold specTypeOk at hst
            rw [if_neg harr, if_neg hobj, if_neg hnum] at hst
            have heq : Json.jsTypeof v = t := by
              simpa using hst
            simp [hget, hty, heq, harr, hnum]

theorem applySchema_conformant :
    ∀ (schema : List (String × Rule)) (fields : List (String × Json)),
      arrayNoCoerce schema →
      (∀ p ∈ schema, ruleConformant fields p.1 p.2 = true) →
      applySchema schema fields =
        (fields,
         (schema.filter
           (fun p => p.2.type = some "array" &&
             (Json.getField fields p.1).isSome)).map
           (fun p => "Field " ++ p.1 ++ " should be " ++ "array" ++
             ", got " ++ "object")) := by
  intro schema
  induction schema with
  | nil =>
    intro fields _ _
    simp [applySchema]
  | cons p rest ih =>
    intro fields hP hall
    obtain ⟨nm, r⟩ := p
    have hvf := validateField_conformant fields nm r
      (fun h => hP (nm, r) (List.mem_cons_self _ _) h)
      (hall (nm, r) (List.mem_cons_self _ _))
    have hrest := ih fields
      (fun q hq h => hP q (List.mem_cons_of_mem _ hq) h)
      (fun q hq => hall q (List.mem_cons_of_mem _ hq))
    simp only [applySchema, hvf, hrest]
    by_cases hcond : (r.type = some "array" &&
        (Json.getField fields nm).isSome) = true
    · simp [List.filter_cons, hcond]
    · simp [List.filter_cons, hcond]

end JSONParsingUtils

namespace JSONParsingUtils

/-- On a conforming object, validation keeps the data unchanged and the
error list is exactly one typeof warning per present array field. -/
theorem validateAndNormalize_conformant (fields : List (String × Json))
    (schema : List (String × Rule)) (hP : arrayNoCoerce schema)
    (hall : ∀ p ∈ schema, ruleConformant fields p.1 p.2 = true) :
    validateAndNormalize (.obj fields) schema =
      ⟨((schema.filter (fun p => p.2.type = some "array" &&
          (Json.getField fields p.1).isSome)).map
          (fun p => "Field " ++ p.1 ++ " should be " ++ "array" ++
            ", got " ++ "object")).isEmpty,
       some (.obj fields),
       some ((schema.filter (fun p => p.2.type = some "array" &&
          (Json.getField fields p.1).isSome)).map
          (fun p => "Field " ++ p.1 ++ " should be " ++ "array" ++
            ", got " ++ "object")),
       some ((schema.filter (fun p => p.2.type = some "array" &&
          (Json.getField fields p.1).isSome)).map
          (fun p => "Field " ++ p.1 ++ " should be " ++ "array" ++
            ", got " ++ "object")).length,
       none⟩ := by
  have happ := applySchema_conformant schema fields hP hall
  unfold validateAndNormalize
  rw [if_neg (by simp [Json.jsTruthy, Json.jsTypeof])]
  simp only [Json.objFields, happ]

theorem isEmpty_or_lt3 (l : List String) :
    (l.isEmpty || decide (l.length < 3)) = decide (l.length < 3) := by
  cases l <;> simp

end JSONParsingUtils

/-- A schema-valid topicAnalysis payload: all four required array fields
present with arrays of strings. -/
def topicJsonStr : String :=
  "\x7b\"mainConcepts\":[\"a\"],\"skills\":[\"b\"],\"focusAreas\":[\"c\"],\"relevanceKeywords\":[\"d\"]\x7d"

def topicJsonVal : Json :=
  .obj [("mainConcepts", .arr [.str "a"]), ("skills", .arr [.str "b"]),
        ("focusAreas", .arr [.str "c"]), ("relevanceKeywords", .arr [.str "d"])]

/-- A schema-valid questionGeneration payload. -/
def questionJsonStr : String :=
  "\x7b\"question\":\"Explain event delegation in JavaScript\"\x7d"

def questionJsonVal : Json :=
  .obj [("question", .str "Explain event delegation in JavaScript")]

/-- C7 counterexample: a JSON input that satisfies every rule of the
topicAnalysis schema comes back with identical data but ok false: each of
its four required array fields is flagged by the typeof check, which
reports object for arrays, and four warnings exceed the acceptance
threshold of three. -/
theorem normalize_clean_input_not_ok_counterexample :
    parseJson topicJsonStr = some topicJsonVal ∧
    JSONParsingUtils.schemaConformant
      (JSONParsingUtils.createSchema "topicAnalysis") topicJsonVal = true ∧
    (JSONParsingUtils.parseWithValidation topicJsonStr "topicAnalysis").data =
      some topicJsonVal ∧
    (JSONParsingUtils.parseWithValidation topicJsonStr "topicAnalysis").success =
      false := by
  refine ⟨by rfl, by rfl, by rfl, by rfl⟩

/-- C7 amended: for input that parses directly and conforms to the
requested schema, the normalizer returns the parsed object unchanged, and
ok is true exactly when fewer than three of the schema's array-typed
fields are present, because the typeof check counts one warning for every
present array field and the envelope accepts only fewer than three
warnings. -/
theorem parseWithValidation_clean_input (s t : String) (j : Json)
    (hp : parseJson s = some j)
    (hconf : JSONParsingUtils.schemaConformant
      (JSONParsingUtils.createSchema t) j = true) :
    (JSONParsingUtils.parseWithValidation s t).data = some j ∧
    (JSONParsingUtils.parseWithValidation s t).success =
      decide (JSONParsingUtils.countPresentArrayFields
        (JSONParsingUtils.createSchema t) j < 3) := by
  open JSONParsingUtils in
  cases j with
  | null => exact Bool.noConfusion hconf
  | bool b => exact Bool.noConfusion hconf
  | num q => exact Bool.noConfusion hconf
  | str s' => exact Bool.noConfusion hconf
  | arr xs => exact Bool.noConfusion hconf
  | obj fields =>
    have hall : ∀ p ∈ createSchema t, ruleConformant fields p.1 p.2 = true := by
      intro p hp'
      have hAll : (createSchema t).all
          (fun p => ruleConformant fields p.1 p.2) = true := hconf
      exact List.all_eq_true.mp hAll p hp'
    have hvn := validateAndNormalize_conformant fields (createSchema t)
      (createSchema_arrayNoCoerce t) hall
    have hrb : parseRobustJSON s =
        ⟨true, some (.obj fields), "direct", none, none⟩ := by
      unfold parseRobustJSON
      rw [hp]
    unfold parseWithValidation
    rw [hrb]
    simp only [Bool.not_true]
    rw [if_neg (by decide)]
    simp only [hvn]
    constructor
    · trivial
    · show (List.isEmpty _ || decide (List.length _ < 3)) = _
      rw [isEmpty_or_lt3, List.length_map]
      rfl

/-- C7 witness: a clean questionGeneration input, whose schema has no
array field present, comes back ok true with identical data. -/
theorem parseWithValidation_clean_input_witness :
    (JSONParsingUtils.parseWithValidation questionJsonStr
      "questionGeneration").data = some questionJsonVal ∧
    (JSONParsingUtils.parseWithValidation questionJsonStr
      "questionGeneration").success =
      decide (JSONParsingUtils.countPresentArrayFields
        (JSONParsingUtils.createSchema "questionGeneration")
        questionJsonVal < 3) :=
  parseWithValidation_clean_input questionJsonStr "questionGeneration"
    questionJsonVal (by rfl) (by rfl)

/-- C1 counterexample: on completely non-JSON input the normalizer
returns ok false with no data object at all, instead of the claimed
fully defaulted object for the requested schema. -/
theorem parseWithValidation_nonjson_counterexample :
    (JSONParsingUtils.parseWithValidation "hello world" "topicAnalysis").success =
      false ∧
    (JSONParsingUtils.parseWithValidation "hello world" "topicAnalysis").data =
      none := by
  exact ⟨rfl, rfl⟩

/-- C1 amended: the normalizer is a total function (it never throws), and
when every parsing strategy fails it returns ok false carrying the error
text and the first 500 characters of the input, but no data object:
schema defaults are applied only when some parse strategy succeeds. -/
theorem parseWithValidation_total_failure_shape (s t : String)
    (h : (JSONParsingUtils.parseRobustJSON s).success = false) :
    JSONParsingUtils.parseWithValidation s t =
      ⟨false, none, "failed", some "All JSON parsing strategies failed",
       some (JSONParsingUtils.strTake s 500), none, none, none⟩ := by
  have hfail := JSONParsingUtils.parseRobustJSON_failure_shape s h
  unfold JSONParsingUtils.parseWithValidation
  rw [hfail]
  rfl

/-- C1 witness: the amended theorem at a concrete non-JSON input. -/
theorem parseWithValidation_total_failure_shape_witness :
    JSONParsingUtils.parseWithValidation "hello world" "topicAnalysis" =
      ⟨false, none, "failed", some "All JSON parsing strategies failed",
       some (JSONParsingUtils.strTake "hello world" 500), none, none, none⟩ :=
  parseWithValidation_total_failure_shape "hello world" "topicAnalysis" (by rfl)

/-- A perfect-adjacent per-response analysis with aggregate score 90. -/
def score90Analysis : PerformanceAnalysisOrchestrator.RespAnalysis :=
  ⟨⟨JNum.ofNat 90, JNum.ofNat 90, JNum.ofNat 90, JNum.ofNat 90,
    JNum.ofNat 90, JNum.ofNat 90⟩,
   ["Strong answer"], ["Keep going"], "Excellent detail", JNum.ofNat 90,
   ["Depth"], "agent analysis"⟩

def entry90 : PerformanceAnalysisOrchestrator.RespEntry :=
  ⟨"q1", "Q", "A", 0, score90Analysis, false⟩

/-- C6 counterexample: two responses scored 90 average to 90; the spec
table maps 90 to excellent, but the orchestrator fallback labels it good:
the fallback thresholds are 80 for good and 60 for fair, with no
excellent tier. -/
theorem fallback_performanceLevel_counterexample :
    (PerformanceAnalysisOrchestrator.generateFallbackOverallAnalysis
      [entry90, entry90] cfgO).overallScore = JNum.ofInt 90 ∧
    (PerformanceAnalysisOrchestrator.generateFallbackOverallAnalysis
      [entry90, entry90] cfgO).performanceLevel = "good" ∧
    specPerformanceLevel (JNum.ofInt 90) = "excellent" ∧
    ("good" : String) ≠ "excellent" := by
  refine ⟨by rfl, by rfl, by rfl, by decide⟩

/-- C6 amended: for the orchestrator fallback, with at least one analysis
and every per-response score well-formed in the range 0 to 100, the
overall score stays within 0 to 100, and the performance level comes from
the actual fallback thresholds, 80 good and 60 fair, never excellent. -/
theorem generateFallbackOverallAnalysis_level_and_range
    (entries : List PerformanceAnalysisOrchestrator.RespEntry)
    (config : VoiceInterviewService.InterviewConfigJS)
    (hne : entries ≠ [])
    (hb : ∀ e ∈ entries, e.analysis.score.WF ∧
      JNum.ble (JNum.ofInt 0) e.analysis.score = true ∧
      JNum.ble e.analysis.score (JNum.ofInt 100) = true) :
    (0 ≤ (PerformanceAnalysisOrchestrator.generateFallbackOverallAnalysis
        entries config).overallScore.toRat ∧
      (PerformanceAnalysisOrchestrator.generateFallbackOverallAnalysis
        entries config).overallScore.toRat ≤ 100) ∧
    (PerformanceAnalysisOrchestrator.generateFallbackOverallAnalysis
      entries config).performanceLevel =
      (if (80 : Rat) ≤
          (PerformanceAnalysisOrchestrator.fallbackAvgScore entries).toRat
       then "good"
       else if (60 : Rat) ≤
          (PerformanceAnalysisOrchestrator.fallbackAvgScore entries).toRat
       then "fair"
       else "needs_improvement") ∧
    (PerformanceAnalysisOrchestrator.generateFallbackOverallAnalysis
      entries config).performanceLevel ≠ "excellent" := by
  open PerformanceAnalysisOrchestrator in
  have hascore : (generateFallbackOverallAnalysis entries config).overallScore =
      JNum.ofInt (fallbackAvgScore entries).jsRound := rfl
  have hlevel : (generateFallbackOverallAnalysis entries config).performanceLevel =
      (if JNum.ble (JNum.ofNat 80) (fallbackAvgScore entries) then "good"
       else if JNum.ble (JNum.ofNat 60) (fallbackAvgScore entries) then "fair"
       else "needs_improvement") := rfl
  have havg := fallbackAvgScore_bounds entries hne hb
  have hround : (fallbackAvgScore entries).jsRound =
      ⌊(fallbackAvgScore entries).toRat + 1 / 2⌋ := JNum.jsRound_eq havg.1
  have hfloor_lo : (0 : Int) ≤ (fallbackAvgScore entries).jsRound := by
    rw [hround]
    apply Int.le_floor.mpr
    push_cast
    linarith [havg.2.1]
  have hfloor_hi : (fallbackAvgScore entries).jsRound ≤ 100 := by
    rw [hround]
    have h1 : ((⌊(fallbackAvgScore entries).toRat + 1 / 2⌋ : Int) : Rat) ≤
        (fallbackAvgScore entries).toRat + 1 / 2 := Int.floor_le _
    have h2 : ((⌊(fallbackAvgScore entries).toRat + 1 / 2⌋ : Int) : Rat) <
        ((101 : Int) : Rat) := by
      push_cast
      linarith [havg.2.2]
    have h3 : ⌊(fallbackAvgScore entries).toRat + 1 / 2⌋ < 101 := by
      exact_mod_cast h2
    omega
  refine ⟨?_, ?_, ?_⟩
  · rw [hascore, JNum.toRat_ofInt]
    constructor
    · exact_mod_cast hfloor_lo
    · exact_mod_cast hfloor_hi
  · rw [hlevel]
    have h80 : (JNum.ble (JNum.ofNat 80) (fallbackAvgScore entries) = true) ↔
        ((80 : Rat) ≤ (fallbackAvgScore entries).toRat) := by
      rw [JNum.ble_iff_le (JNum.ofNat_wf 80) havg.1, JNum.toRat_ofNat]
      norm_num
    have h60 : (JNum.ble (JNum.ofNat 60) (fallbackAvgScore entries) = true) ↔
        ((60 : Rat) ≤ (fallbackAvgScore entries).toRat) := by
      rw [JNum.ble_iff_le (JNum.ofNat_wf 60) havg.1, JNum.toRat_ofNat]
      norm_num
    by_cases hc80 : (80 : Rat) ≤ (fallbackAvgScore entries).toRat
    · rw [if_pos (h80.mpr hc80), if_pos hc80]
    · rw [if_neg (fun h => hc80 (h80.mp h)), if_neg hc80]
      by_cases hc60 : (60 : Rat) ≤ (fallbackAvgScore entries).toRat
      · rw [if_pos (h60.mpr hc60), if_pos hc60]
      · rw [if_neg (fun h => hc60 (h60.mp h)), if_neg hc60]
  · rw [hlevel]
    by_cases hc80 : JNum.ble (JNum.ofNat 80) (fallbackAvgScore entries)
    · rw [if_pos hc80]
      decide
    · rw [if_neg hc80]
      by_cases hc60 : JNum.ble (JNum.ofNat 60) (fallbackAvgScore entries)
      · rw [if_pos hc60]
        decide
      · rw [if_neg hc60]
        decide

/-- C6 witness: the amended theorem applied to one concrete analysis with
score 90. -/
theorem generateFallbackOverallAnalysis_level_and_range_witness :
    (0 ≤ (PerformanceAnalysisOrchestrator.generateFallbackOverallAnalysis
        [entry90] cfgO).overallScore.toRat ∧
      (PerformanceAnalysisOrchestrator.generateFallbackOverallAnalysis
        [entry90] cfgO).overallScore.toRat ≤ 100) ∧
    (PerformanceAnalysisOrchestrator.generateFallbackOverallAnalysis
      [entry90] cfgO).performanceLevel =
      (if (80 : Rat) ≤
          (PerformanceAnalysisOrchestrator.fallbackAvgScore [entry90]).toRat
       then "good"
       else if (60 : Rat) ≤
          (PerformanceAnalysisOrchestrator.fallbackAvgScore [entry90]).toRat
       then "fair"
       else "needs_improvement") ∧
    (PerformanceAnalysisOrchestrator.generateFallbackOverallAnalysis
      [entry90] cfgO).performanceLevel ≠ "excellent" :=
  generateFallbackOverallAnalysis_level_and_range [entry90] cfgO
    (by decide) (by decide)

/-- C8: the synthesized report carries exactly one question review per
input response, in input order; the review of response i is built from
the agent result when the agent succeeds and from the deterministic
heuristic fallback when the agent throws, so a single per-response
failure never loses the other reviews. -/
theorem analytics_one_review_per_response :
    ∀ (agentO : PerformanceAnalysisOrchestrator.RespAgentOracle)
      (overallO : PerformanceAnalysisOrchestrator.OverallAgentOracle)
      (cache : PerformanceAnalysisOrchestrator.AnalysisCache) (now : Nat)
      (responses : List PerformanceAnalysisOrchestrator.InterviewResponse)
      (config : VoiceInterviewService.InterviewConfigJS),
      (PerformanceAnalysisOrchestrator.generateComprehensiveAnalytics agentO
        overallO cache now responses config).1.questionReviews.length =
        responses.length ∧
      ∀ i : Nat,
        (PerformanceAnalysisOrchestrator.generateComprehensiveAnalytics agentO
          overallO cache now responses config).1.questionReviews.get? i =
          (responses.get? i).map (fun resp =>
            PerformanceAnalysisOrchestrator.reviewOf resp
              (match agentO resp (i + 1) with
               | .ok a => a
               | .error _ =>
                 PerformanceAnalysisOrchestrator.generateFallbackResponseAnalysis
                   resp config)) := by
  intro agentO overallO cache now responses config
  constructor
  · show (List.map _ _).length = _
    rw [List.length_map]
    exact PerformanceAnalysisOrchestrator.analyzeLoop_length agentO config
      responses 0
  · intro i
    show (List.map _ _).get? i = _
    rw [List.get?_map]
    simp only [PerformanceAnalysisOrchestrator.analyzeIndividualResponses]
    rw [PerformanceAnalysisOrchestrator.analyzeLoop_get agentO config responses 0 i,
      Option.map_map]
    have hz : (0 : Nat) + i + 1 = i + 1 := by omega
    rw [hz]
    apply congrFun
    apply congrArg
    funext resp
    simp only [Function.comp_apply]
    cases agentO resp (i + 1) <;> rfl

end Bolt
